import Mathlib

/-!
# ZNC `charset` module (`modules/charset.cpp`)

A shallow embedding of `CCharsetMod`: the charset probe, the optional
detector, the single-charset and the list-form `ConvertCharset`, `OnLoad`,
`OnRaw` and `OnUserRaw`.

* A `CString` is a `std::string`: a list of `char`s, one `Char` per byte.
* The ICU library (`ucnv_*`, `ucsdet_*`) is outside the repository; every call
  the module makes is a field of `Env`, so each theorem holds for any behaviour
  of ICU unless it says otherwise.
* `CString::Token`, `CString::Split` and `CString::Equals` belong to ZNC but
  live in `ZNCString.cpp`, which is not part of the module file; they are
  modelled below.
-/

namespace Charset

/-! ## Strings -/

/-- A `CString` (`std::string`): the bytes of the string, in order. -/
abbrev CString := List Char

/-- A `VCString` (`std::vector<CString>`). -/
abbrev VCString := List CString

/-! ## ICU error codes (`unicode/utypes.h`) -/

/-- An ICU `UErrorCode`: warnings are negative, errors positive. -/
abbrev UErrorCode := Int

/-- The code `U_ZERO_ERROR = 0`: no error, no warning. -/
def U_ZERO_ERROR : UErrorCode := 0

/-- The code `U_BUFFER_OVERFLOW_ERROR = 15`: a result would not fit in the supplied buffer. -/
def U_BUFFER_OVERFLOW_ERROR : UErrorCode := 15

/-- The code `U_STRING_NOT_TERMINATED_WARNING = -124`: the output exactly fills the buffer. -/
def U_STRING_NOT_TERMINATED_WARNING : UErrorCode := -124

/-- The code `U_ILLEGAL_ARGUMENT_ERROR = 1`. -/
def U_ILLEGAL_ARGUMENT_ERROR : UErrorCode := 1

/-- The code `U_FILE_ACCESS_ERROR = 4`: the requested file (ICU data) cannot be found. -/
def U_FILE_ACCESS_ERROR : UErrorCode := 4

/-- The macro `U_SUCCESS(x)`, that is `x <= U_ZERO_ERROR`. -/
def U_SUCCESS (x : UErrorCode) : Bool := decide (x ≤ U_ZERO_ERROR)

/-- The macro `U_FAILURE(x)`, that is `x > U_ZERO_ERROR`. -/
def U_FAILURE (x : UErrorCode) : Bool := decide (x > U_ZERO_ERROR)

/-- The macro `UCNV_GET_MAX_BYTES_FOR_STRING(length, maxCharSize)` of
`unicode/ucnv.h`: `((length) + 10) * (maxCharSize)`. -/
def UCNV_GET_MAX_BYTES_FOR_STRING (length maxCharSize : Nat) : Nat :=
  (length + 10) * maxCharSize

/-- The constant of `charset.cpp` line 13:
`#define CONVERT_BUFFER_LEN UCNV_GET_MAX_BYTES_FOR_STRING(512, 4)`. -/
def CONVERT_BUFFER_LEN : Nat := UCNV_GET_MAX_BYTES_FOR_STRING 512 4

/-! ## The environment: ICU and the stack -/

/-- What one call of `ucnv_convert` leaves behind. -/
structure ConvertResult where
  /-- The return value: the length of the complete output text in bytes. -/
  nBytes : Nat
  /-- The bytes written to the target buffer, from its start (the part that
  exceeds the capacity is never written). -/
  written : CString
  /-- The error code left in `*pErrorCode`. -/
  uErr : UErrorCode

/-- Everything the module reads from outside itself. -/
structure Env where
  /-- The call `ucnv_open(name, &uErr)`: the error code it leaves. -/
  ucnv_open : CString → UErrorCode
  /-- The call `ucnv_convert(to, from, buf, capacity, data, size, &uErr)`. -/
  ucnv_convert : CString → CString → Nat → CString → ConvertResult
  /-- The call `ucsdet_open(&uErr)`: the error code it leaves. -/
  ucsdet_open : UErrorCode
  /-- The call `ucsdet_setText(detector, data, size, &uErr)`: the error code it leaves. -/
  ucsdet_setText : CString → UErrorCode
  /-- The call `ucsdet_detectAll(detector, &nMatches, &uErr)` after `setText`
  on the given data: the names `ucsdet_getName(matches[i])` for
  `i < nMatches`, and the error code. -/
  ucsdet_detectAll : CString → VCString × UErrorCode
  /-- The bytes that lie in memory after the local array `buf` of
  `ConvertCharset`: byte `i` past the end of the array. -/
  stackAfter : Nat → Char

/-! ## `CString` helpers of ZNC -/

/-- Modelled from the spec: `CString::Token(uPos)` of `ZNCString.cpp` (a file
of ZNC outside the module), called with its default separator `" "` and without empty
tokens. `tokenize s acc` lists the maximal runs of non-space characters of
`acc ++ s`, where `acc` is the run being read. -/
def tokenize : CString → CString → VCString
  | [], acc => if acc = [] then [] else [acc]
  | c :: cs, acc =>
    if c = ' ' then
      if acc = [] then tokenize cs [] else acc :: tokenize cs []
    else tokenize cs (acc ++ [c])

/-- Modelled from the spec: `CString::Token(uPos)` of `ZNCString.cpp` (a file
of ZNC outside the module): the `uPos`-th word of the space-separated argument string,
counted from 0, and the empty string when there is no such word. -/
def Token (s : CString) (uPos : Nat) : CString :=
  (tokenize s []).getD uPos []

/-- Modelled from the spec: the loop behind `CString::Split(sDelim, vsRet)`
of `ZNCString.cpp` (a file of ZNC outside the module). The specification
speaks of comma-separated lists of encoding names and says (section 9) that
a value of just `,` produces zero candidates after the split: the names are
the non-empty pieces between delimiters. `sTmp` is the piece being read. -/
def SplitLoop (sDelim : Char) : CString → CString → VCString
  | [], sTmp => if sTmp = [] then [] else [sTmp]
  | c :: p, sTmp =>
    if c = sDelim then
      if sTmp = [] then SplitLoop sDelim p [] else sTmp :: SplitLoop sDelim p []
    else SplitLoop sDelim p (sTmp ++ [c])

/-- Modelled from the spec: `CString::Split(",", vsRet)` of `ZNCString.cpp`
(a file of ZNC outside the module): the names of a comma-separated list, in
order; the empty string and a string of commas only have none. -/
def Split (s : CString) : VCString :=
  if s = [] then [] else SplitLoop ',' s []

/-- Modelled from the spec: `CString::Equals(s)` of `ZNCString.cpp` (a file
of ZNC outside the module) with its default `bCaseSensitive = false`: equality up to the
case of ASCII letters. -/
def Equals (a b : CString) : Bool :=
  decide (a.map Char.toLower = b.map Char.toLower)

/-! ## The module -/

/-- The data members of `CCharsetMod`. -/
structure CCharsetMod where
  m_vsClientCharsets : VCString
  m_vsServerCharsets : VCString
  /-- Try to guess source charsets before applying specified ones. -/
  m_bGuess : Bool
  /-- Only convert messages from server to client. -/
  m_bOnlyServer : Bool
  /-- Whether `m_pCharsetDetector` holds a detector (is not `NULL`). -/
  m_pCharsetDetector : Bool
deriving DecidableEq, Repr

/-- The state `MODCONSTRUCTOR(CCharsetMod)` leaves. -/
def CCharsetMod.construct : CCharsetMod :=
  { m_vsClientCharsets := [], m_vsServerCharsets := [],
    m_bGuess := false, m_bOnlyServer := false, m_pCharsetDetector := false }

/-- The module return codes: the enumeration `CModule::EModRet` of
`znc/Modules.h` (`CONTINUE`, `HALT`, `HALTMODS`, `HALTCORE`); this file
returns `CONTINUE` only. -/
inductive EModRet where
  | CONTINUE
  | HALT
  | HALTMODS
  | HALTCORE
deriving DecidableEq, Repr

/-- `GuessCharsets(sData, charsets)`: the return value and `charsets` after
the call (the detected names are appended to it). -/
def GuessCharsets (env : Env) (sData : CString) (charsets : VCString) : Bool × VCString :=
  let uErr := env.ucsdet_setText sData
  if U_SUCCESS uErr then
    let r := env.ucsdet_detectAll sData
    if U_SUCCESS r.2 then
      (true, charsets ++ r.1)
    else (false, charsets)
  else (false, charsets)

/-- The byte at offset `i` from the start of the local array
`char buf[CONVERT_BUFFER_LEN] = {0}` once `ucnv_convert` has written
`written` to it: the written bytes, then the zeros of the initialiser, and
past the end of the array whatever the stack holds there. -/
def bufByte (env : Env) (written : CString) (i : Nat) : Char :=
  if i < CONVERT_BUFFER_LEN then (written.take CONVERT_BUFFER_LEN).getD i (Char.ofNat 0)
  else env.stackAfter (i - CONVERT_BUFFER_LEN)

/-- `sData.assign(buf, nBytes)`: the `nBytes` bytes starting at `buf`. -/
def assign (env : Env) (written : CString) (nBytes : Nat) : CString :=
  (List.range nBytes).map (bufByte env written)

/-- `ConvertCharset(const CString& sFrom, const CString& sTo, CString& sData)`,
the single-charset form: the return value and `sData` after the call. -/
def ConvertCharset (env : Env) (sFrom sTo : CString) (sData : CString) : Bool × CString :=
  let r := env.ucnv_convert sTo sFrom CONVERT_BUFFER_LEN sData
  if U_FAILURE r.uErr && r.uErr != U_BUFFER_OVERFLOW_ERROR then
    (false, sData)
  else
    (true, assign env r.written r.nBytes)

/-- The loop of the list form of `ConvertCharset` over `srcCharsets`, with
the caller's `sData` and the working copy `sDataCopy`: the value of
`bConverted` and `sData` when the loop ends. -/
def convertLoop (env : Env) (sTo : CString) : VCString → CString → CString → Bool × CString
  | [], sData, _ => (false, sData)
  | itf :: rest, sData, sDataCopy =>
    let r := ConvertCharset env itf sTo sDataCopy
    if r.1 then
      -- conversion successful: sData = sDataCopy; bConverted = true; break
      (true, r.2)
    else
      -- reset string and try the next charset: sDataCopy = sData
      convertLoop env sTo rest sData sData

/-- The source charsets the list form tries, in order: `srcCharsets` after
the optional `GuessCharsets` and the insertion of `vsFrom` at its end. -/
def srcCharsets (env : Env) (self : CCharsetMod) (vsFrom : VCString) (sData : CString) : VCString :=
  let guessed : VCString := if self.m_bGuess then (GuessCharsets env sData []).2 else []
  guessed ++ vsFrom

/-- `ConvertCharset(const VCString& vsFrom, const CString& sTo, CString& sData)`,
the list form: the return value and `sData` after the call. -/
def ConvertCharsetList (env : Env) (self : CCharsetMod) (vsFrom : VCString) (sTo : CString)
    (sData : CString) : Bool × CString :=
  let sDataCopy := sData
  convertLoop env sTo (srcCharsets env self vsFrom sData) sData sDataCopy

/-- `OpenCharsetDetector()`: the return value and `m_pCharsetDetector`
(whether it is a detector) after the call. -/
def OpenCharsetDetector (env : Env) : Bool × Bool :=
  let uErr := env.ucsdet_open
  (U_SUCCESS uErr, U_SUCCESS uErr)

/-- `CanConvertToUnicode(sCharset)`. -/
def CanConvertToUnicode (env : Env) (sCharset : CString) : Bool :=
  let uErr := env.ucnv_open sCharset
  if U_SUCCESS uErr then true else false

/-- The message `"Cannot convert '" + name + "'."`. -/
def cannotConvert (name : CString) : CString :=
  "Cannot convert ".toList ++ [Char.ofNat 39] ++ name ++ [Char.ofNat 39] ++ ".".toList

/-- The message OnLoad gives when the detector cannot be opened. -/
def detectorMessage : CString := "Could not open charset detector.".toList

/-- The usage message of OnLoad. -/
def usageMessage : CString :=
  ("This module needs two charset lists as arguments: [-guess] [-onlyserver] "
    ++ "<client_charset1[,client_charset2[,...]]> "
    ++ "<server_charset1[,server_charset2[,...]]>").toList

/-- What a probe loop has done: the names passed to `CanConvertToUnicode`,
in call order, and the name the loop stopped at, if it stopped. -/
structure Probe where
  probed : VCString
  failed : Option CString
deriving DecidableEq, Repr

/-- The inner loop of the probe (`itt` over `vsTo`) for one `itf`. -/
def probeInner (env : Env) (itf : CString) : VCString → Probe
  | [] => { probed := [], failed := none }
  | itt :: rest =>
    if !CanConvertToUnicode env itf then
      { probed := [itf], failed := some itf }
    else if !CanConvertToUnicode env itt then
      { probed := [itf, itt], failed := some itt }
    else
      let r := probeInner env itf rest
      { probed := itf :: itt :: r.probed, failed := r.failed }

/-- The outer loop of the probe (`itf` over `vsFrom`). -/
def probeOuter (env : Env) (vsTo : VCString) : VCString → Probe
  | [] => { probed := [], failed := none }
  | itf :: rest =>
    let r := probeInner env itf vsTo
    match r.failed with
    | some bad => { probed := r.probed, failed := some bad }
    | none =>
      let r2 := probeOuter env vsTo rest
      { probed := r.probed ++ r2.probed, failed := r2.failed }

/-- What `OnLoad` leaves: its return value, `sMessage`, the module, and the
names it passed to `CanConvertToUnicode`. -/
structure LoadResult where
  ret : Bool
  sMessage : CString
  self : CCharsetMod
  probed : VCString
deriving DecidableEq, Repr

/-- The part of `OnLoad` after the two flags (lines 176 to 212), with
`uIndex` the number of flags read. -/
def OnLoadLists (env : Env) (self : CCharsetMod) (sArgs : CString) (sMessage : CString)
    (uIndex : Nat) : LoadResult :=
  if (Token sArgs (uIndex + 1)).isEmpty || !(Token sArgs (uIndex + 2)).isEmpty then
    { ret := false, sMessage := usageMessage, self := self, probed := [] }
  else
    let vsFrom := Split (Token sArgs uIndex)
    let vsTo := Split (Token sArgs (uIndex + 1))
    let r := probeOuter env vsTo vsFrom
    match r.failed with
    | some bad =>
      { ret := false, sMessage := cannotConvert bad, self := self, probed := r.probed }
    | none =>
      { ret := true, sMessage := sMessage,
        self := { self with m_vsClientCharsets := vsFrom, m_vsServerCharsets := vsTo },
        probed := r.probed }

/-- The part of `OnLoad` from the `-onlyserver` test on (lines 170 to 212). -/
def OnLoadOnlyServer (env : Env) (self : CCharsetMod) (sArgs : CString) (sMessage : CString)
    (uIndex : Nat) : LoadResult :=
  if Equals (Token sArgs uIndex) "-onlyserver".toList then
    OnLoadLists env { self with m_bOnlyServer := true } sArgs sMessage (uIndex + 1)
  else
    OnLoadLists env self sArgs sMessage uIndex

/-- `OnLoad(sArgs, sMessage)`. -/
def OnLoad (env : Env) (self : CCharsetMod) (sArgs : CString) (sMessage : CString) : LoadResult :=
  let uIndex := 0
  if Equals (Token sArgs uIndex) "-guess".toList then
    let o := OpenCharsetDetector env
    if !o.1 then
      { ret := false, sMessage := detectorMessage,
        self := { self with m_pCharsetDetector := o.2 }, probed := [] }
    else
      OnLoadOnlyServer env { self with m_pCharsetDetector := o.2, m_bGuess := true }
        sArgs sMessage (uIndex + 1)
  else
    OnLoadOnlyServer env self sArgs sMessage uIndex

/-- `OnRaw(sLine)`, server to client: the return code and `sLine` after the
call; `none` when `m_vsClientCharsets[0]` is read from an empty vector. -/
def OnRaw (env : Env) (self : CCharsetMod) (sLine : CString) : Option (EModRet × CString) :=
  match self.m_vsClientCharsets with
  | [] => none
  | sTo :: _ =>
    some (EModRet.CONTINUE, (ConvertCharsetList env self self.m_vsServerCharsets sTo sLine).2)

/-- `OnUserRaw(sLine)`, client to server: the return code and `sLine` after
the call; `none` when `m_vsServerCharsets[0]` is read from an empty vector. -/
def OnUserRaw (env : Env) (self : CCharsetMod) (sLine : CString) : Option (EModRet × CString) :=
  if !self.m_bOnlyServer then
    match self.m_vsServerCharsets with
    | [] => none
    | sTo :: _ =>
      some (EModRet.CONTINUE, (ConvertCharsetList env self self.m_vsClientCharsets sTo sLine).2)
  else
    some (EModRet.CONTINUE, sLine)

/-! ## Reading the argument string -/

/-- Whether `OnLoad` reads `-guess` as the first word of the arguments. -/
def guessGiven (sArgs : CString) : Bool :=
  Equals (Token sArgs 0) "-guess".toList

/-- Whether `OnLoad` reads `-onlyserver` at the word after the optional `-guess`. -/
def onlyServerGiven (sArgs : CString) : Bool :=
  Equals (Token sArgs (if guessGiven sArgs then 1 else 0)) "-onlyserver".toList

/-- The value of `uIndex` when `OnLoad` reaches the two lists: the number of
flags it has read. -/
def listIndex (sArgs : CString) : Nat :=
  (if guessGiven sArgs then 1 else 0) + (if onlyServerGiven sArgs then 1 else 0)

/-- The comma-split client list of the arguments: `vsFrom` of `OnLoad`. -/
def clientArg (sArgs : CString) : VCString :=
  Split (Token sArgs (listIndex sArgs))

/-- The comma-split server list of the arguments: `vsTo` of `OnLoad`. -/
def serverArg (sArgs : CString) : VCString :=
  Split (Token sArgs (listIndex sArgs + 1))

/-- Whether each list word of the arguments that is present holds a name:
its comma-split is not empty (the word is not made of commas only). -/
def listWordsHaveNames (sArgs : CString) : Bool :=
  ((Token sArgs (listIndex sArgs)).isEmpty || !(clientArg sArgs).isEmpty) &&
    ((Token sArgs (listIndex sArgs + 1)).isEmpty || !(serverArg sArgs).isEmpty)

/-- The number of words of the argument string that follow the flags. -/
def listTokens (sArgs : CString) : Nat :=
  (tokenize sArgs []).length - listIndex sArgs

/-- The detector's ranked list for a buffer: what `GuessCharsets` appends to
an empty vector (nothing when the detector fails). -/
def detected (env : Env) (sData : CString) : VCString :=
  (GuessCharsets env sData []).2

/-! ## The Fallback Converter as the specification words it -/

/-- The Fallback Converter of the specification (section 4.3): iterate the
candidates in order; for each, attempt the conversion of the buffer from the
candidate to the target; the first attempt that succeeds gives the result;
when none does, the original buffer and `succeeded = false`. -/
def specConvert (env : Env) : VCString → CString → CString → CString × Bool
  | [], _, buffer => (buffer, false)
  | candidate :: rest, target, buffer =>
    if (ConvertCharset env candidate target buffer).1 then
      ((ConvertCharset env candidate target buffer).2, true)
    else specConvert env rest target buffer

/-- The source candidates of the specification's Negotiation Policy
(section 4.4): the detected candidates, if guessing is enabled, followed by
the configured list. -/
def specCandidates (env : Env) (guessEnabled : Bool) (configured : VCString)
    (buffer : CString) : VCString :=
  (if guessEnabled then detected env buffer else []) ++ configured

/-! ## A small ICU for the examples -/

/-- The converter names the example ICU knows. -/
def stubNames : VCString :=
  ["UTF-8".toList, "ISO-8859-1".toList, "TIS-620".toList]

/-- The UTF-8 bytes the example ICU gives for one source byte: an ASCII byte
is itself; an ISO-8859-1 byte from 0x80 on has two bytes; a TIS-620 byte
from 0xA1 to 0xDF (U+0E01 to U+0E3F) has the three bytes E0 B8 xx. -/
def stubEncode (sFrom : CString) (c : Char) : CString :=
  if c.toNat < 128 then [c]
  else if sFrom = "TIS-620".toList then
    [Char.ofNat 0xE0, Char.ofNat 0xB8, Char.ofNat (c.toNat - 0x20)]
  else if sFrom = "ISO-8859-1".toList then
    [Char.ofNat (0xC0 + c.toNat / 64), Char.ofNat (0x80 + c.toNat % 64)]
  else [c]

/-- The example `ucnv_convert`: an unknown name is an error; otherwise the
complete output is the concatenation of the encoded bytes, its length is
returned, what fits the capacity is written, and the error code says
whether the output overflowed, filled, or fitted the buffer. -/
def stubConvert (sTo sFrom : CString) (capacity : Nat) (sData : CString) : ConvertResult :=
  if sTo ∈ stubNames ∧ sFrom ∈ stubNames then
    let out := (sData.map (stubEncode sFrom)).flatten
    { nBytes := out.length, written := out.take capacity,
      uErr := if capacity < out.length then U_BUFFER_OVERFLOW_ERROR
              else if out.length = capacity then U_STRING_NOT_TERMINATED_WARNING
              else U_ZERO_ERROR }
  else { nBytes := 0, written := [], uErr := U_FILE_ACCESS_ERROR }

/-- The example ICU: three converters, and a detector that ranks
`ISO-2022-JP` (which has no converter here) before `UTF-8` for every text. -/
def stubEnv : Env where
  ucnv_open := fun name => if name ∈ stubNames then U_ZERO_ERROR else U_FILE_ACCESS_ERROR
  ucnv_convert := stubConvert
  ucsdet_open := U_ZERO_ERROR
  ucsdet_setText := fun _ => U_ZERO_ERROR
  ucsdet_detectAll := fun _ => (["ISO-2022-JP".toList, "UTF-8".toList], U_ZERO_ERROR)
  stackAfter := fun _ => '#'

/-- The example ICU on a host where the detector cannot be opened. -/
def stubEnvNoDetector : Env :=
  { stubEnv with ucsdet_open := U_FILE_ACCESS_ERROR }

/-- A module with the given lists and flags. -/
def moduleWith (client server : VCString) (guess onlyServer : Bool) : CCharsetMod :=
  { m_vsClientCharsets := client, m_vsServerCharsets := server,
    m_bGuess := guess, m_bOnlyServer := onlyServer, m_pCharsetDetector := guess }

/-- Whether the external primitive converts `sData` from `sFrom` to `sTo`
successfully with the complete output `out`: the error code is a success,
the bytes written are `out`, the returned length is the length of `out`, and
`out` fits the buffer of `CONVERT_BUFFER_LEN` bytes it was written to. -/
def convertsTo (env : Env) (sFrom sTo sData out : CString) : Bool :=
  U_SUCCESS (env.ucnv_convert sTo sFrom CONVERT_BUFFER_LEN sData).uErr &&
    decide ((env.ucnv_convert sTo sFrom CONVERT_BUFFER_LEN sData).written = out) &&
    decide ((env.ucnv_convert sTo sFrom CONVERT_BUFFER_LEN sData).nBytes = out.length) &&
    decide (out.length ≤ CONVERT_BUFFER_LEN)

/-- The ISO-8859-1 bytes the example ICU gives for UTF-8 text: a two-byte
sequence `C2 xx` or `C3 xx` is one byte, every other byte is itself. -/
def stubDecodeUtf8 : CString → CString
  | [] => []
  | [c] => [c]
  | c :: d :: rest =>
    if 0xC2 ≤ c.toNat ∧ c.toNat ≤ 0xC3 ∧ 0x80 ≤ d.toNat ∧ d.toNat < 0xC0 then
      Char.ofNat ((c.toNat - 0xC0) * 64 + (d.toNat - 0x80)) :: stubDecodeUtf8 rest
    else c :: stubDecodeUtf8 (d :: rest)

/-- The example `ucnv_convert` with the conversion from UTF-8 to ISO-8859-1 added. -/
def stubConvertLatin1 (sTo sFrom : CString) (capacity : Nat) (sData : CString) : ConvertResult :=
  if sTo = "ISO-8859-1".toList ∧ sFrom = "UTF-8".toList then
    let out := stubDecodeUtf8 sData
    { nBytes := out.length, written := out.take capacity,
      uErr := if capacity < out.length then U_BUFFER_OVERFLOW_ERROR
              else if out.length = capacity then U_STRING_NOT_TERMINATED_WARNING
              else U_ZERO_ERROR }
  else stubConvert sTo sFrom capacity sData

/-- The example ICU with the conversion from UTF-8 to ISO-8859-1 added. -/
def stubEnvLatin1 : Env :=
  { stubEnv with ucnv_convert := stubConvertLatin1 }

/-- The first entry of a list that `CanConvertToUnicode` does not resolve. -/
def firstUnresolvable (env : Env) (names : VCString) : Option CString :=
  names.find? (fun n => !CanConvertToUnicode env n)

/-- The example ICU with a detector that cannot be opened, rejects every
text, and would rank `TIS-620` first. -/
def stubEnvBadDetector : Env :=
  { stubEnv with
    ucsdet_open := U_FILE_ACCESS_ERROR
    ucsdet_setText := fun _ => U_ILLEGAL_ARGUMENT_ERROR
    ucsdet_detectAll := fun _ => (["TIS-620".toList], U_ZERO_ERROR) }

/-- Whether a string is one word of an argument string: not empty, no space. -/
def isWord (w : CString) : Bool :=
  !w.isEmpty && decide (' ' ∉ w)

/-- An argument string of the documented form
`[-guess] [-onlyserver] <client_list> <server_list>`, its parts separated by
one space. -/
def documentedArgs (guess onlyServer : Bool) (clientList serverList : CString) : CString :=
  (if guess then "-guess".toList ++ [' '] else []) ++
    ((if onlyServer then "-onlyserver".toList ++ [' '] else []) ++
      (clientList ++ ' ' :: serverList))

/-- The names of a list written with commas between them. -/
def joinComma : VCString → CString
  | [] => []
  | [a] => a
  | a :: b :: rest => a ++ ',' :: joinComma (b :: rest)

/-- The module as `OnLoad` has it when it reaches the two lists: the flags
read so far are set, and the detector handle is the one just opened. -/
def afterFlags (env : Env) (self : CCharsetMod) (sArgs : CString) : CCharsetMod :=
  let s1 : CCharsetMod :=
    if guessGiven sArgs then
      { self with m_pCharsetDetector := (OpenCharsetDetector env).2, m_bGuess := true }
    else self
  if onlyServerGiven sArgs then { s1 with m_bOnlyServer := true } else s1

/-- Whether `OnLoad` gets past the detector: `-guess` is absent, or the
detector opens. -/
def detectorOk (env : Env) (sArgs : CString) : Bool :=
  !guessGiven sArgs || U_SUCCESS env.ucsdet_open

/-! ## Facts about the string helpers -/

theorem tokenize_mem_ne_nil (s acc : CString) :
    ∀ t ∈ tokenize s acc, t ≠ [] := by
  induction s generalizing acc with
  | nil =>
    intro t ht
    by_cases h : acc = []
    · simp [tokenize, h] at ht
    · simp [tokenize, h] at ht
      subst ht
      exact h
  | cons c cs ih =>
    intro t ht
    by_cases hc : c = ' '
    · by_cases h : acc = []
      · simp [tokenize, hc, h] at ht
        exact ih [] t ht
      · simp [tokenize, hc, h] at ht
        rcases ht with ht | ht
        · subst ht
          exact h
        · exact ih [] t ht
    · simp [tokenize, hc] at ht
      exact ih _ t ht

/-- A word exists at a position exactly when the position is below the number of words. -/
theorem Token_ne_nil_iff (s : CString) (n : Nat) :
    Token s n ≠ [] ↔ n < (tokenize s []).length := by
  unfold Token
  constructor
  · intro h
    by_contra hn
    exact h (List.getD_eq_default _ _ (Nat.le_of_not_lt hn))
  · intro h
    rw [List.getD_eq_getElem _ _ h]
    exact tokenize_mem_ne_nil s [] _ (List.getElem_mem _)

theorem Token_eq_nil_iff (s : CString) (n : Nat) :
    Token s n = [] ↔ (tokenize s []).length ≤ n := by
  have h := Token_ne_nil_iff s n
  constructor
  · intro h0
    by_contra hn
    exact (h.mpr (Nat.lt_of_not_le hn)) h0
  · intro h0
    by_contra hn
    exact absurd (h.mp hn) (Nat.not_lt.mpr h0)

theorem Split_nil : Split [] = [] := rfl

/-! ## Facts about the probe loops -/

theorem probeInner_failed_none (env : Env) (itf : CString) (vsTo : VCString) :
    (probeInner env itf vsTo).failed = none ↔
      vsTo = [] ∨ (CanConvertToUnicode env itf = true ∧
        ∀ t ∈ vsTo, CanConvertToUnicode env t = true) := by
  induction vsTo with
  | nil => simp [probeInner]
  | cons itt rest ih =>
    by_cases h1 : CanConvertToUnicode env itf = true
    · by_cases h2 : CanConvertToUnicode env itt = true
      · simp only [probeInner, h1, h2, Bool.not_true, Bool.false_eq_true, if_false, ih]
        constructor
        · intro h
          rcases h with h | h
          · subst h
            exact Or.inr ⟨trivial, by simpa using h2⟩
          · exact Or.inr ⟨trivial, by
              intro t ht
              rcases List.mem_cons.mp ht with ht | ht
              · subst ht; exact h2
              · exact h.2 t ht⟩
        · intro h
          rcases h with h | h
          · exact absurd h (by simp)
          · exact Or.inr ⟨trivial, fun t ht => h.2 t (List.mem_cons_of_mem _ ht)⟩
      · simp [probeInner, h1, h2]
    · simp [probeInner, h1]

theorem probeInner_failed_some (env : Env) (itf : CString) (vsTo : VCString) (bad : CString)
    (h : (probeInner env itf vsTo).failed = some bad) :
    (bad = itf ∨ bad ∈ vsTo) ∧ CanConvertToUnicode env bad = false := by
  induction vsTo with
  | nil => simp [probeInner] at h
  | cons itt rest ih =>
    by_cases h1 : CanConvertToUnicode env itf = true
    · by_cases h2 : CanConvertToUnicode env itt = true
      · simp only [probeInner, h1, h2, Bool.not_true, Bool.false_eq_true, if_false] at h
        obtain ⟨hm, hb⟩ := ih h
        refine ⟨?_, hb⟩
        rcases hm with hm | hm
        · exact Or.inl hm
        · exact Or.inr (List.mem_cons_of_mem _ hm)
      · simp only [probeInner, h1, h2, Bool.not_true, Bool.false_eq_true, if_false,
          Bool.not_false, if_true, Option.some.injEq] at h
        subst h
        exact ⟨Or.inr (List.mem_cons_self _ _), by simpa using h2⟩
    · simp only [probeInner, h1, Bool.not_false, if_true, Option.some.injEq] at h
      subst h
      exact ⟨Or.inl rfl, by simpa using h1⟩

theorem probeOuter_failed_none (env : Env) (vsTo vsFrom : VCString) :
    (probeOuter env vsTo vsFrom).failed = none ↔
      vsFrom = [] ∨ vsTo = [] ∨
        ((∀ f ∈ vsFrom, CanConvertToUnicode env f = true) ∧
          ∀ t ∈ vsTo, CanConvertToUnicode env t = true) := by
  induction vsFrom with
  | nil => simp [probeOuter]
  | cons itf rest ih =>
    cases hr : (probeInner env itf vsTo).failed with
    | some bad =>
      have hb := probeInner_failed_some env itf vsTo bad hr
      have hne : vsTo ≠ [] := by
        intro h0
        subst h0
        simp [probeInner] at hr
      simp only [probeOuter, hr]
      constructor
      · intro h
        exact absurd h (by simp)
      · intro h
        rcases h with h | h | h
        · exact absurd h (by simp)
        · exact absurd h hne
        · exfalso
          rcases hb.1 with hm | hm
          · have := h.1 bad (by rw [hm]; exact List.mem_cons_self _ _)
            rw [hb.2] at this
            exact Bool.false_ne_true this
          · have := h.2 bad hm
            rw [hb.2] at this
            exact Bool.false_ne_true this
    | none =>
      have hn := (probeInner_failed_none env itf vsTo).mp hr
      simp only [probeOuter, hr, ih]
      constructor
      · intro h
        rcases h with h | h | h
        · subst h
          rcases hn with hn | hn
          · exact Or.inr (Or.inl hn)
          · refine Or.inr (Or.inr ⟨?_, hn.2⟩)
            intro f hf
            simp only [List.mem_singleton] at hf
            subst hf
            exact hn.1
        · exact Or.inr (Or.inl h)
        · rcases hn with hn | hn
          · exact Or.inr (Or.inl hn)
          · refine Or.inr (Or.inr ⟨?_, h.2⟩)
            intro f hf
            rcases List.mem_cons.mp hf with hf | hf
            · subst hf; exact hn.1
            · exact h.1 f hf
      · intro h
        rcases h with h | h | h
        · exact absurd h (by simp)
        · exact Or.inr (Or.inl h)
        · exact Or.inr (Or.inr ⟨fun f hf => h.1 f (List.mem_cons_of_mem _ hf), h.2⟩)

theorem probeOuter_failed_some (env : Env) (vsTo vsFrom : VCString) (bad : CString)
    (h : (probeOuter env vsTo vsFrom).failed = some bad) :
    bad ∈ vsFrom ++ vsTo ∧ CanConvertToUnicode env bad = false := by
  induction vsFrom with
  | nil => simp [probeOuter] at h
  | cons itf rest ih =>
    cases hr : (probeInner env itf vsTo).failed with
    | some b =>
      simp only [probeOuter, hr, Option.some.injEq] at h
      subst h
      have hb := probeInner_failed_some env itf vsTo b hr
      refine ⟨?_, hb.2⟩
      rcases hb.1 with hm | hm
      · rw [hm]; simp
      · simp [hm]
    | none =>
      simp only [probeOuter, hr] at h
      obtain ⟨hm, hb⟩ := ih h
      refine ⟨?_, hb⟩
      rcases List.mem_append.mp hm with hm | hm
      · simp [hm]
      · simp [hm]

/-! ## Facts about `OnLoad` -/

/-- When `-guess` is given and the detector cannot be opened, `OnLoad` stops there. -/
theorem OnLoad_detector_fails (env : Env) (self : CCharsetMod) (sArgs sMessage : CString)
    (h : detectorOk env sArgs = false) :
    OnLoad env self sArgs sMessage =
      { ret := false, sMessage := detectorMessage,
        self := { self with m_pCharsetDetector := false }, probed := [] } := by
  simp only [detectorOk, Bool.or_eq_false_iff, Bool.not_eq_false_eq_eq_true] at h
  obtain ⟨hg, ho⟩ := h
  simp only [guessGiven] at hg
  simp only [OnLoad, hg, if_true, OpenCharsetDetector, ho, Bool.not_false]

/-- Otherwise `OnLoad` reaches the two lists with the flags applied. -/
theorem OnLoad_eq_OnLoadLists (env : Env) (self : CCharsetMod) (sArgs sMessage : CString)
    (h : detectorOk env sArgs = true) :
    OnLoad env self sArgs sMessage =
      OnLoadLists env (afterFlags env self sArgs) sArgs sMessage (listIndex sArgs) := by
  by_cases hg : guessGiven sArgs = true
  · have ho : U_SUCCESS env.ucsdet_open = true := by
      simpa [detectorOk, hg] using h
    have hg0 := hg
    simp only [guessGiven] at hg0
    by_cases hs : onlyServerGiven sArgs = true
    · have hs0 := hs
      simp only [onlyServerGiven, hg, if_true] at hs0
      simp only [OnLoad, OnLoadOnlyServer, afterFlags, listIndex, hg, hs, hg0, hs0,
        OpenCharsetDetector, ho, if_true, Bool.not_true, Bool.false_eq_true, if_false,
        Nat.zero_add]
    · have hs0 := hs
      simp only [onlyServerGiven, hg, if_true] at hs0
      simp only [OnLoad, OnLoadOnlyServer, afterFlags, listIndex, hg, hs, hg0, hs0,
        OpenCharsetDetector, ho, if_true, Bool.not_true, Bool.false_eq_true, if_false,
        Nat.zero_add, Nat.add_zero]
  · have hg0 := hg
    simp only [guessGiven] at hg0
    by_cases hs : onlyServerGiven sArgs = true
    · have hs0 := hs
      simp only [onlyServerGiven, hg, Bool.false_eq_true, if_false] at hs0
      simp only [OnLoad, OnLoadOnlyServer, afterFlags, listIndex, hg, hs, hg0, hs0,
        if_true, Bool.false_eq_true, if_false, Nat.zero_add]
    · have hs0 := hs
      simp only [onlyServerGiven, hg, Bool.false_eq_true, if_false] at hs0
      simp only [OnLoad, OnLoadOnlyServer, afterFlags, listIndex, hg, hs, hg0, hs0,
        if_true, Bool.false_eq_true, if_false, Nat.zero_add, Nat.add_zero]

/-- The usage test of `OnLoad` rejects exactly the argument strings that do
not have two words after the flags. -/
theorem usage_test_iff (sArgs : CString) (uIndex : Nat) :
    ((Token sArgs (uIndex + 1)).isEmpty || !(Token sArgs (uIndex + 2)).isEmpty) = true ↔
      (tokenize sArgs []).length - uIndex ≠ 2 := by
  have h1 := Token_eq_nil_iff sArgs (uIndex + 1)
  have h2 := Token_ne_nil_iff sArgs (uIndex + 2)
  simp only [Bool.or_eq_true, List.isEmpty_iff, Bool.not_eq_true', ← Bool.not_eq_true]
  rw [h1, ← Ne, h2]
  omega

theorem OnLoadLists_usage (env : Env) (self : CCharsetMod) (sArgs sMessage : CString)
    (uIndex : Nat) (h : (tokenize sArgs []).length - uIndex ≠ 2) :
    OnLoadLists env self sArgs sMessage uIndex =
      { ret := false, sMessage := usageMessage, self := self, probed := [] } := by
  have := (usage_test_iff sArgs uIndex).mpr h
  simp only [OnLoadLists, this, if_true]

theorem OnLoadLists_probe (env : Env) (self : CCharsetMod) (sArgs sMessage : CString)
    (uIndex : Nat) (h : (tokenize sArgs []).length - uIndex = 2) :
    OnLoadLists env self sArgs sMessage uIndex =
      match (probeOuter env (Split (Token sArgs (uIndex + 1)))
          (Split (Token sArgs uIndex))).failed with
      | some bad =>
        { ret := false, sMessage := cannotConvert bad, self := self,
          probed := (probeOuter env (Split (Token sArgs (uIndex + 1)))
            (Split (Token sArgs uIndex))).probed }
      | none =>
        { ret := true, sMessage := sMessage,
          self := { self with m_vsClientCharsets := Split (Token sArgs uIndex),
                              m_vsServerCharsets := Split (Token sArgs (uIndex + 1)) },
          probed := (probeOuter env (Split (Token sArgs (uIndex + 1)))
            (Split (Token sArgs uIndex))).probed } := by
  have hu : ¬ (((Token sArgs (uIndex + 1)).isEmpty || !(Token sArgs (uIndex + 2)).isEmpty) = true) := by
    rw [usage_test_iff]
    simpa using h
  simp only [OnLoadLists, hu, if_false]
  rfl

/-- With two words after the flags both list words are present. -/
theorem list_words_present (sArgs : CString) (uIndex : Nat)
    (h : (tokenize sArgs []).length - uIndex = 2) :
    Token sArgs uIndex ≠ [] ∧ Token sArgs (uIndex + 1) ≠ [] := by
  have h0 := Token_ne_nil_iff sArgs uIndex
  have h1 := Token_ne_nil_iff sArgs (uIndex + 1)
  exact ⟨h0.mpr (by omega), h1.mpr (by omega)⟩

/-- With two words after the flags that both hold a name, both split lists
have an entry. -/
theorem lists_ne_nil_of_names (sArgs : CString)
    (h : (tokenize sArgs []).length - listIndex sArgs = 2)
    (hnames : listWordsHaveNames sArgs = true) :
    clientArg sArgs ≠ [] ∧ serverArg sArgs ≠ [] := by
  obtain ⟨h0, h1⟩ := list_words_present sArgs (listIndex sArgs) h
  simp only [listWordsHaveNames, Bool.and_eq_true, Bool.or_eq_true, List.isEmpty_iff,
    Bool.not_eq_true', ← Bool.not_eq_true] at hnames
  constructor
  · rcases hnames.1 with h | h
    · exact absurd h h0
    · exact h
  · rcases hnames.2 with h | h
    · exact absurd h h1
    · exact h

/-- What a successful `OnLoad` stores: the module after the flags, with the
two split lists. -/
theorem OnLoad_true_self (env : Env) (self : CCharsetMod) (sArgs sMessage : CString)
    (h : (OnLoad env self sArgs sMessage).ret = true) :
    detectorOk env sArgs = true ∧ listTokens sArgs = 2 ∧
      (probeOuter env (serverArg sArgs) (clientArg sArgs)).failed = none ∧
      (OnLoad env self sArgs sMessage).self =
        { afterFlags env self sArgs with
          m_vsClientCharsets := clientArg sArgs, m_vsServerCharsets := serverArg sArgs } := by
  by_cases hd : detectorOk env sArgs = true
  · rw [OnLoad_eq_OnLoadLists env self sArgs sMessage hd] at h ⊢
    by_cases h2 : (tokenize sArgs []).length - listIndex sArgs = 2
    · rw [OnLoadLists_probe env _ sArgs sMessage _ h2] at h ⊢
      cases hp : (probeOuter env (Split (Token sArgs (listIndex sArgs + 1)))
          (Split (Token sArgs (listIndex sArgs)))).failed with
      | some bad => simp [hp] at h
      | none => exact ⟨hd, h2, hp, rfl⟩
    · rw [OnLoadLists_usage env _ sArgs sMessage _ h2] at h
      simp at h
  · have hd0 : detectorOk env sArgs = false := by simpa using hd
    rw [OnLoad_detector_fails env self sArgs sMessage hd0] at h
    simp at h

/-! ## The list form of `ConvertCharset` -/

theorem convertLoop_all_fail (env : Env) (sTo sData : CString) (cs : VCString)
    (h : ∀ c ∈ cs, (ConvertCharset env c sTo sData).1 = false) :
    convertLoop env sTo cs sData sData = (false, sData) := by
  induction cs with
  | nil => rfl
  | cons c rest ih =>
    have hc := h c (List.mem_cons_self _ _)
    simp only [convertLoop, hc, Bool.false_eq_true, if_false]
    exact ih (fun x hx => h x (List.mem_cons_of_mem _ hx))

theorem convertLoop_first (env : Env) (sTo sData : CString) (pre post : VCString) (c : CString)
    (hpre : ∀ x ∈ pre, (ConvertCharset env x sTo sData).1 = false)
    (hc : (ConvertCharset env c sTo sData).1 = true) :
    convertLoop env sTo (pre ++ c :: post) sData sData =
      (true, (ConvertCharset env c sTo sData).2) := by
  induction pre with
  | nil => simp only [List.nil_append, convertLoop, hc, if_true]
  | cons x rest ih =>
    have hx := hpre x (List.mem_cons_self _ _)
    simp only [List.cons_append, convertLoop, hx, Bool.false_eq_true, if_false]
    exact ih (fun y hy => hpre y (List.mem_cons_of_mem _ hy))

/-- The loop of the source computes the Fallback Converter of the specification. -/
theorem convertLoop_eq_specConvert (env : Env) (sTo sData : CString) (cs : VCString) :
    convertLoop env sTo cs sData sData =
      ((specConvert env cs sTo sData).2, (specConvert env cs sTo sData).1) := by
  induction cs with
  | nil => rfl
  | cons c rest ih =>
    by_cases hc : (ConvertCharset env c sTo sData).1 = true
    · simp only [convertLoop, specConvert, hc, if_true]
    · simp only [convertLoop, specConvert, hc, if_false]
      exact ih

/-- A list with an entry that satisfies `p` splits at the first such entry. -/
theorem exists_first_split {α : Type} (p : α → Bool) (l : List α) (h : ∃ x ∈ l, p x = true) :
    ∃ pre c post, l = pre ++ c :: post ∧ (∀ x ∈ pre, p x = false) ∧ p c = true := by
  induction l with
  | nil =>
    obtain ⟨x, hx, _⟩ := h
    exact absurd hx (List.not_mem_nil x)
  | cons a rest ih =>
    by_cases ha : p a = true
    · exact ⟨[], a, rest, rfl, fun x hx => absurd hx (List.not_mem_nil x), ha⟩
    · have hrest : ∃ x ∈ rest, p x = true := by
        obtain ⟨x, hx, hp⟩ := h
        rcases List.mem_cons.mp hx with hx | hx
        · subst hx
          exact absurd hp ha
        · exact ⟨x, hx, hp⟩
      obtain ⟨pre, c, post, hl, hpre, hc⟩ := ih hrest
      refine ⟨a :: pre, c, post, by rw [hl]; rfl, ?_, hc⟩
      intro x hx
      rcases List.mem_cons.mp hx with hx | hx
      · subst hx
        simpa using ha
      · exact hpre x hx

theorem length_assign (env : Env) (written : CString) (nBytes : Nat) :
    (assign env written nBytes).length = nBytes := by
  simp [assign]

/-- The tried sequence is the detected names, if guessing is on, then the given list. -/
theorem srcCharsets_eq (env : Env) (self : CCharsetMod) (vsFrom : VCString) (sData : CString) :
    srcCharsets env self vsFrom sData =
      specCandidates env self.m_bGuess vsFrom sData := by
  rfl

theorem detected_of_success (env : Env) (sData : CString)
    (h1 : U_SUCCESS (env.ucsdet_setText sData) = true)
    (h2 : U_SUCCESS (env.ucsdet_detectAll sData).2 = true) :
    detected env sData = (env.ucsdet_detectAll sData).1 := by
  simp [detected, GuessCharsets, h1, h2]

theorem detected_of_failure (env : Env) (sData : CString)
    (h : U_SUCCESS (env.ucsdet_setText sData) = false ∨
      U_SUCCESS (env.ucsdet_detectAll sData).2 = false) :
    detected env sData = [] := by
  rcases h with h | h
  · simp [detected, GuessCharsets, h]
  · by_cases h1 : U_SUCCESS (env.ucsdet_setText sData) = true
    · simp [detected, GuessCharsets, h1, h]
    · simp [detected, GuessCharsets, h1]

/-- A successful single conversion leaves the `nBytes` bytes at `buf`. -/
theorem ConvertCharset_snd_of_true (env : Env) (sFrom sTo sData : CString)
    (h : (ConvertCharset env sFrom sTo sData).1 = true) :
    (ConvertCharset env sFrom sTo sData).2 =
      assign env (env.ucnv_convert sTo sFrom CONVERT_BUFFER_LEN sData).written
        (env.ucnv_convert sTo sFrom CONVERT_BUFFER_LEN sData).nBytes := by
  unfold ConvertCharset at h ⊢
  by_cases hf : (U_FAILURE (env.ucnv_convert sTo sFrom CONVERT_BUFFER_LEN sData).uErr &&
      (env.ucnv_convert sTo sFrom CONVERT_BUFFER_LEN sData).uErr != U_BUFFER_OVERFLOW_ERROR) = true
  · simp only [hf, if_true] at h
    exact absurd h (by simp)
  · simp only [hf, Bool.false_eq_true, if_false]

/-- A failed single conversion leaves the buffer as it was. -/
theorem ConvertCharset_snd_of_false (env : Env) (sFrom sTo sData : CString)
    (h : (ConvertCharset env sFrom sTo sData).1 = false) :
    (ConvertCharset env sFrom sTo sData).2 = sData := by
  unfold ConvertCharset at h ⊢
  by_cases hf : (U_FAILURE (env.ucnv_convert sTo sFrom CONVERT_BUFFER_LEN sData).uErr &&
      (env.ucnv_convert sTo sFrom CONVERT_BUFFER_LEN sData).uErr != U_BUFFER_OVERFLOW_ERROR) = true
  · simp only [hf, if_true]
  · simp only [hf, Bool.false_eq_true, if_false] at h
    exact absurd h (by simp)

/-- The overflow status counts as success: the buffer takes the returned
length, whatever the capacity. -/
theorem ConvertCharset_of_overflow (env : Env) (sFrom sTo sData : CString)
    (h : (env.ucnv_convert sTo sFrom CONVERT_BUFFER_LEN sData).uErr = U_BUFFER_OVERFLOW_ERROR) :
    ConvertCharset env sFrom sTo sData =
      (true, assign env (env.ucnv_convert sTo sFrom CONVERT_BUFFER_LEN sData).written
        (env.ucnv_convert sTo sFrom CONVERT_BUFFER_LEN sData).nBytes) := by
  simp [ConvertCharset, h]

theorem getD_assign (env : Env) (written : CString) (nBytes i : Nat) (d : Char)
    (h : i < nBytes) :
    (assign env written nBytes).getD i d = bufByte env written i := by
  simp [assign, List.getD_eq_getElem?_getD, List.getElem?_map, List.getElem?_range, h]

theorem length_flatten_map_replicate {α β : Type} (f : α → List β) (a : α) (n : Nat) :
    ((List.replicate n a).map f).flatten.length = n * (f a).length := by
  induction n with
  | zero => simp
  | succ k ih =>
    simp only [List.replicate_succ, List.map_cons, List.flatten_cons, List.length_append, ih]
    ring

theorem stubEnv_ucnv_convert : stubEnv.ucnv_convert = stubConvert := rfl

theorem stubConvert_nBytes (sTo sFrom : CString) (capacity : Nat) (sData : CString)
    (h : sTo ∈ stubNames ∧ sFrom ∈ stubNames) :
    (stubConvert sTo sFrom capacity sData).nBytes =
      ((sData.map (stubEncode sFrom)).flatten).length := by
  unfold stubConvert
  rw [if_pos h]

theorem stubConvert_overflow (sTo sFrom : CString) (capacity : Nat) (sData : CString)
    (h : sTo ∈ stubNames ∧ sFrom ∈ stubNames)
    (hlen : capacity < ((sData.map (stubEncode sFrom)).flatten).length) :
    (stubConvert sTo sFrom capacity sData).uErr = U_BUFFER_OVERFLOW_ERROR := by
  unfold stubConvert
  rw [if_pos h]
  simp only [hlen, if_true]

theorem stubConvert_written_length (sTo sFrom : CString) (capacity : Nat) (sData : CString)
    (h : sTo ∈ stubNames ∧ sFrom ∈ stubNames) :
    (stubConvert sTo sFrom capacity sData).written.length =
      min capacity ((sData.map (stubEncode sFrom)).flatten).length := by
  unfold stubConvert
  rw [if_pos h]
  simp only [List.length_take]

theorem srcCharsets_of_not_guess (env : Env) (self : CCharsetMod) (vsFrom : VCString)
    (sData : CString) (h : self.m_bGuess = false) :
    srcCharsets env self vsFrom sData = vsFrom := by
  simp [srcCharsets, h]

/-- C1 as stated fails at three inputs. With the arguments
`UTF-8 ISO-8859-1 extra` both split lists have one resolvable name, yet
`OnLoad` returns false with the usage message, because a third word follows.
With `-guess UTF-8 ISO-8859-1` on a host where the detector cannot be opened,
both lists are again non-empty and resolvable, yet `OnLoad` returns false.
With `, UTF-8` the client word holds no name, the client list is empty, and
`OnLoad` returns true. -/
theorem OnLoad_true_iff_lists_counterexample :
    (clientArg "UTF-8 ISO-8859-1 extra".toList = ["UTF-8".toList] ∧
      serverArg "UTF-8 ISO-8859-1 extra".toList = ["ISO-8859-1".toList] ∧
      (∀ n ∈ clientArg "UTF-8 ISO-8859-1 extra".toList ++
          serverArg "UTF-8 ISO-8859-1 extra".toList,
        CanConvertToUnicode stubEnv n = true) ∧
      (OnLoad stubEnv CCharsetMod.construct "UTF-8 ISO-8859-1 extra".toList []).ret = false ∧
      (OnLoad stubEnv CCharsetMod.construct "UTF-8 ISO-8859-1 extra".toList []).sMessage =
        usageMessage) ∧
    (clientArg "-guess UTF-8 ISO-8859-1".toList = ["UTF-8".toList] ∧
      serverArg "-guess UTF-8 ISO-8859-1".toList = ["ISO-8859-1".toList] ∧
      (∀ n ∈ clientArg "-guess UTF-8 ISO-8859-1".toList ++
          serverArg "-guess UTF-8 ISO-8859-1".toList,
        CanConvertToUnicode stubEnvNoDetector n = true) ∧
      (OnLoad stubEnvNoDetector CCharsetMod.construct
        "-guess UTF-8 ISO-8859-1".toList []).ret = false ∧
      (OnLoad stubEnvNoDetector CCharsetMod.construct
        "-guess UTF-8 ISO-8859-1".toList []).sMessage = detectorMessage) ∧
    (clientArg ", UTF-8".toList = [] ∧
      (OnLoad stubEnv CCharsetMod.construct ", UTF-8".toList []).ret = true) := by
  decide

/-- C1, amended: for every argument string whose list words each hold a
name (no list word is made of commas only), `OnLoad` returns true if and
only if the detector opens when `-guess` is given, no third word follows the
two lists, both comma-split lists are non-empty, and every name in both
lists is resolvable by `CanConvertToUnicode`. -/
theorem OnLoad_true_iff (env : Env) (self : CCharsetMod) (sArgs sMessage : CString)
    (hnames : listWordsHaveNames sArgs = true) :
    (OnLoad env self sArgs sMessage).ret = true ↔
      (detectorOk env sArgs = true ∧ listTokens sArgs ≤ 2 ∧
        clientArg sArgs ≠ [] ∧ serverArg sArgs ≠ [] ∧
        ∀ n ∈ clientArg sArgs ++ serverArg sArgs, CanConvertToUnicode env n = true) := by
  constructor
  · intro h
    obtain ⟨hd, h2, hp, _⟩ := OnLoad_true_self env self sArgs sMessage h
    have hne := lists_ne_nil_of_names sArgs h2 hnames
    refine ⟨hd, Nat.le_of_eq h2, hne.1, hne.2, ?_⟩
    rcases (probeOuter_failed_none env _ _).mp hp with h0 | h0 | h0
    · exact absurd h0 hne.1
    · exact absurd h0 hne.2
    · intro n hn
      rcases List.mem_append.mp hn with hn | hn
      · exact h0.1 n hn
      · exact h0.2 n hn
  · rintro ⟨hd, hle, hc, hs, hall⟩
    have h1 : listIndex sArgs + 1 < (tokenize sArgs []).length := by
      have : Token sArgs (listIndex sArgs + 1) ≠ [] := by
        intro h0
        apply hs
        show Split (Token sArgs (listIndex sArgs + 1)) = []
        rw [h0]
        rfl
      exact (Token_ne_nil_iff _ _).mp this
    have h2 : (tokenize sArgs []).length - listIndex sArgs = 2 := by
      have : (tokenize sArgs []).length - listIndex sArgs ≤ 2 := hle
      omega
    have hp : (probeOuter env (Split (Token sArgs (listIndex sArgs + 1)))
        (Split (Token sArgs (listIndex sArgs)))).failed = none := by
      rw [probeOuter_failed_none]
      exact Or.inr (Or.inr ⟨fun f hf => hall f (List.mem_append_left _ hf),
        fun t ht => hall t (List.mem_append_right _ ht)⟩)
    rw [OnLoad_eq_OnLoadLists env self sArgs sMessage hd,
      OnLoadLists_probe env _ sArgs sMessage _ h2, hp]

/-- Witness of C1: the documented form with `-guess`, two client names and
one server name, all resolvable, and a detector that opens. -/
theorem OnLoad_true_iff_witness :
    listWordsHaveNames "-guess UTF-8,TIS-620 ISO-8859-1".toList = true ∧
    (OnLoad stubEnv CCharsetMod.construct "-guess UTF-8,TIS-620 ISO-8859-1".toList []).ret =
      true ∧
    ((OnLoad stubEnv CCharsetMod.construct "-guess UTF-8,TIS-620 ISO-8859-1".toList []).ret =
        true ↔
      (detectorOk stubEnv "-guess UTF-8,TIS-620 ISO-8859-1".toList = true ∧
        listTokens "-guess UTF-8,TIS-620 ISO-8859-1".toList ≤ 2 ∧
        clientArg "-guess UTF-8,TIS-620 ISO-8859-1".toList ≠ [] ∧
        serverArg "-guess UTF-8,TIS-620 ISO-8859-1".toList ≠ [] ∧
        ∀ n ∈ clientArg "-guess UTF-8,TIS-620 ISO-8859-1".toList ++
            serverArg "-guess UTF-8,TIS-620 ISO-8859-1".toList,
          CanConvertToUnicode stubEnv n = true)) :=
  ⟨by decide, by decide,
    OnLoad_true_iff stubEnv CCharsetMod.construct
      "-guess UTF-8,TIS-620 ISO-8859-1".toList [] (by decide)⟩

/-! ## The fallback conversion -/

/-- C2: for every buffer, every candidate list (the empty one included),
every target and either setting of the guess flag, if no charset of the
tried sequence converts the buffer, the list form of `ConvertCharset`
returns false and leaves the buffer equal to its value before the call. -/
theorem ConvertCharsetList_none_converts (env : Env) (self : CCharsetMod) (vsFrom : VCString)
    (sTo sData : CString)
    (h : ∀ c ∈ srcCharsets env self vsFrom sData, (ConvertCharset env c sTo sData).1 = false) :
    ConvertCharsetList env self vsFrom sTo sData = (false, sData) := by
  unfold ConvertCharsetList
  exact convertLoop_all_fail env sTo sData _ h

/-- Witness of C2: with guessing on, the detected names `ISO-2022-JP` and
`UTF-8` followed by the configured `Not-A-Real-Charset` all fail to convert
to the unknown target `KOI8-R`, and the buffer `abc` comes back unchanged. -/
theorem ConvertCharsetList_none_converts_witness :
    (∀ c ∈ srcCharsets stubEnv (moduleWith [] [] true false) ["Not-A-Real-Charset".toList]
        "abc".toList,
      (ConvertCharset stubEnv c "KOI8-R".toList "abc".toList).1 = false) ∧
    ConvertCharsetList stubEnv (moduleWith [] [] true false) ["Not-A-Real-Charset".toList]
      "KOI8-R".toList "abc".toList = (false, "abc".toList) :=
  ⟨by decide,
    ConvertCharsetList_none_converts stubEnv (moduleWith [] [] true false)
      ["Not-A-Real-Charset".toList] "KOI8-R".toList "abc".toList (by decide)⟩

/-- The first converting candidate decides (the part of C3 that holds): for
every buffer `b`, target `t` and tried sequence, if some
candidate converts `b`, the tried sequence splits at its first candidate `c`
whose conversion of the original `b` succeeds (every earlier one fails on
the original `b`), the list form returns true, and the resulting buffer is
what the single conversion of the original `b` from `c` to `t` gives: the
`nBytes` bytes at the output buffer that `ucnv_convert(t, c, ..., b)` filled. -/
theorem ConvertCharsetList_first_converts (env : Env) (self : CCharsetMod) (vsFrom : VCString)
    (t b : CString)
    (h : ∃ c ∈ srcCharsets env self vsFrom b, (ConvertCharset env c t b).1 = true) :
    ∃ pre c post, srcCharsets env self vsFrom b = pre ++ c :: post ∧
      (∀ x ∈ pre, (ConvertCharset env x t b).1 = false) ∧
      (ConvertCharset env c t b).1 = true ∧
      ConvertCharsetList env self vsFrom t b = (true, (ConvertCharset env c t b).2) ∧
      (ConvertCharsetList env self vsFrom t b).2 =
        assign env (env.ucnv_convert t c CONVERT_BUFFER_LEN b).written
          (env.ucnv_convert t c CONVERT_BUFFER_LEN b).nBytes := by
  obtain ⟨pre, c, post, hl, hpre, hc⟩ :=
    exists_first_split (fun x => (ConvertCharset env x t b).1) _ h
  have hres : ConvertCharsetList env self vsFrom t b = (true, (ConvertCharset env c t b).2) := by
    unfold ConvertCharsetList
    rw [hl]
    exact convertLoop_first env t b pre post c hpre hc
  refine ⟨pre, c, post, hl, hpre, hc, hres, ?_⟩
  rw [hres]
  exact ConvertCharset_snd_of_true env c t b hc

/-- An instance of the previous theorem: the configured list `Not-A-Real-Charset, ISO-8859-1, TIS-620`
with target `UTF-8` and the ISO-8859-1 bytes of the word cafe with an acute
accent: the first name fails, `ISO-8859-1` converts the original bytes. -/
theorem ConvertCharsetList_first_converts_witness :
    (∃ c ∈ srcCharsets stubEnv (moduleWith [] [] false false)
        ["Not-A-Real-Charset".toList, "ISO-8859-1".toList, "TIS-620".toList]
        ['c', 'a', 'f', Char.ofNat 0xE9],
      (ConvertCharset stubEnv c "UTF-8".toList ['c', 'a', 'f', Char.ofNat 0xE9]).1 = true) ∧
    ConvertCharsetList stubEnv (moduleWith [] [] false false)
        ["Not-A-Real-Charset".toList, "ISO-8859-1".toList, "TIS-620".toList]
        "UTF-8".toList ['c', 'a', 'f', Char.ofNat 0xE9] =
      (true, ['c', 'a', 'f', Char.ofNat 0xC3, Char.ofNat 0xA9]) ∧
    ∃ pre c post, srcCharsets stubEnv (moduleWith [] [] false false)
        ["Not-A-Real-Charset".toList, "ISO-8859-1".toList, "TIS-620".toList]
        ['c', 'a', 'f', Char.ofNat 0xE9] = pre ++ c :: post ∧
      (∀ x ∈ pre,
        (ConvertCharset stubEnv x "UTF-8".toList ['c', 'a', 'f', Char.ofNat 0xE9]).1 = false) ∧
      (ConvertCharset stubEnv c "UTF-8".toList ['c', 'a', 'f', Char.ofNat 0xE9]).1 = true ∧
      ConvertCharsetList stubEnv (moduleWith [] [] false false)
          ["Not-A-Real-Charset".toList, "ISO-8859-1".toList, "TIS-620".toList]
          "UTF-8".toList ['c', 'a', 'f', Char.ofNat 0xE9] =
        (true, (ConvertCharset stubEnv c "UTF-8".toList ['c', 'a', 'f', Char.ofNat 0xE9]).2) ∧
      (ConvertCharsetList stubEnv (moduleWith [] [] false false)
          ["Not-A-Real-Charset".toList, "ISO-8859-1".toList, "TIS-620".toList]
          "UTF-8".toList ['c', 'a', 'f', Char.ofNat 0xE9]).2 =
        assign stubEnv
          (stubEnv.ucnv_convert "UTF-8".toList c CONVERT_BUFFER_LEN
            ['c', 'a', 'f', Char.ofNat 0xE9]).written
          (stubEnv.ucnv_convert "UTF-8".toList c CONVERT_BUFFER_LEN
            ['c', 'a', 'f', Char.ofNat 0xE9]).nBytes :=
  ⟨⟨"ISO-8859-1".toList, by decide, by decide⟩, by decide,
    ConvertCharsetList_first_converts stubEnv (moduleWith [] [] false false)
      ["Not-A-Real-Charset".toList, "ISO-8859-1".toList, "TIS-620".toList]
      "UTF-8".toList ['c', 'a', 'f', Char.ofNat 0xE9]
      ⟨"ISO-8859-1".toList, by decide, by decide⟩⟩

/-- C4: when guessing is enabled, the sequence of source charsets tried for
a buffer is the detector's ranked list for that buffer (the names
`ucsdet_detectAll` gives when the detector succeeds) followed by the
configured list; so whenever some detected candidate converts the buffer,
the result is the conversion by the first such detected candidate, for
every configured list. -/
theorem ConvertCharsetList_detected_first (env : Env) (self : CCharsetMod) (vsFrom : VCString)
    (t b : CString) (hg : self.m_bGuess = true) :
    srcCharsets env self vsFrom b = detected env b ++ vsFrom ∧
    (U_SUCCESS (env.ucsdet_setText b) = true → U_SUCCESS (env.ucsdet_detectAll b).2 = true →
      detected env b = (env.ucsdet_detectAll b).1) ∧
    ((∃ c ∈ detected env b, (ConvertCharset env c t b).1 = true) →
      ∃ pre c post, detected env b = pre ++ c :: post ∧
        (∀ x ∈ pre, (ConvertCharset env x t b).1 = false) ∧
        (ConvertCharset env c t b).1 = true ∧
        ∀ configured : VCString,
          ConvertCharsetList env self configured t b =
            (true, (ConvertCharset env c t b).2)) := by
  have hsrc : ∀ l : VCString, srcCharsets env self l b = detected env b ++ l := by
    intro l
    simp [srcCharsets, detected, hg]
  refine ⟨hsrc vsFrom, detected_of_success env b, ?_⟩
  intro h
  obtain ⟨pre, c, post, hl, hpre, hc⟩ :=
    exists_first_split (fun x => (ConvertCharset env x t b).1) _ h
  refine ⟨pre, c, post, hl, hpre, hc, ?_⟩
  intro configured
  unfold ConvertCharsetList
  rw [hsrc configured, hl, List.append_assoc, List.cons_append]
  exact convertLoop_first env t b pre (post ++ configured) c hpre hc

/-- Witness of C4: the detector ranks `ISO-2022-JP` (no converter, so the
attempt fails) before `UTF-8`; the buffer `abc` is converted from `UTF-8`
although `TIS-620` is configured. -/
theorem ConvertCharsetList_detected_first_witness :
    (moduleWith [] [] true false).m_bGuess = true ∧
    srcCharsets stubEnv (moduleWith [] [] true false) ["TIS-620".toList] "abc".toList =
      ["ISO-2022-JP".toList, "UTF-8".toList, "TIS-620".toList] ∧
    (srcCharsets stubEnv (moduleWith [] [] true false) ["TIS-620".toList] "abc".toList =
        detected stubEnv "abc".toList ++ ["TIS-620".toList] ∧
      (U_SUCCESS (stubEnv.ucsdet_setText "abc".toList) = true →
        U_SUCCESS (stubEnv.ucsdet_detectAll "abc".toList).2 = true →
        detected stubEnv "abc".toList = (stubEnv.ucsdet_detectAll "abc".toList).1) ∧
      ((∃ c ∈ detected stubEnv "abc".toList,
          (ConvertCharset stubEnv c "ISO-8859-1".toList "abc".toList).1 = true) →
        ∃ pre c post, detected stubEnv "abc".toList = pre ++ c :: post ∧
          (∀ x ∈ pre, (ConvertCharset stubEnv x "ISO-8859-1".toList "abc".toList).1 = false) ∧
          (ConvertCharset stubEnv c "ISO-8859-1".toList "abc".toList).1 = true ∧
          ∀ configured : VCString,
            ConvertCharsetList stubEnv (moduleWith [] [] true false) configured
                "ISO-8859-1".toList "abc".toList =
              (true, (ConvertCharset stubEnv c "ISO-8859-1".toList "abc".toList).2))) :=
  ⟨rfl, by decide,
    ConvertCharsetList_detected_first stubEnv (moduleWith [] [] true false) ["TIS-620".toList]
      "ISO-8859-1".toList "abc".toList rfl⟩

/-! ## The two directions -/

/-- C5: when `m_bOnlyServer` is set, `OnUserRaw` leaves every line unchanged,
for every line, every pair of configured lists (empty ones included) and
every setting of the guess flag. -/
theorem OnUserRaw_onlyServer (env : Env) (self : CCharsetMod) (sLine : CString)
    (h : self.m_bOnlyServer = true) :
    OnUserRaw env self sLine = some (EModRet.CONTINUE, sLine) := by
  simp [OnUserRaw, h]

/-- Witness of C5: a line that `OnRaw` would convert passes `OnUserRaw` unchanged. -/
theorem OnUserRaw_onlyServer_witness :
    (moduleWith ["ISO-8859-1".toList] ["UTF-8".toList] true true).m_bOnlyServer = true ∧
    OnUserRaw stubEnv (moduleWith ["ISO-8859-1".toList] ["UTF-8".toList] true true)
        ['c', 'a', 'f', Char.ofNat 0xE9] =
      some (EModRet.CONTINUE, ['c', 'a', 'f', Char.ofNat 0xE9]) :=
  ⟨rfl, OnUserRaw_onlyServer stubEnv
    (moduleWith ["ISO-8859-1".toList] ["UTF-8".toList] true true)
    ['c', 'a', 'f', Char.ofNat 0xE9] rfl⟩

/-- C6: for a validated configuration (both lists non-empty), `OnRaw` gives
the specification's fallback conversion of the line with the source
candidates (detected if guessing is enabled) followed by the server list and
the target `m_vsClientCharsets[0]`; `OnUserRaw` with `m_bOnlyServer` unset
gives the fallback conversion with the source candidates (detected if
enabled) followed by the client list and the target `m_vsServerCharsets[0]`;
`OnRaw` does not depend on the client entries after the first, nor
`OnUserRaw` on the server entries after the first. -/
theorem OnRaw_OnUserRaw_eq_specConvert (env : Env) (self : CCharsetMod)
    (c s : CString) (cs ss : VCString) (sLine : CString)
    (hc : self.m_vsClientCharsets = c :: cs) (hs : self.m_vsServerCharsets = s :: ss) :
    OnRaw env self sLine =
      some (EModRet.CONTINUE,
        (specConvert env (specCandidates env self.m_bGuess (s :: ss) sLine) c sLine).1) ∧
    (self.m_bOnlyServer = false →
      OnUserRaw env self sLine =
        some (EModRet.CONTINUE,
          (specConvert env (specCandidates env self.m_bGuess (c :: cs) sLine) s sLine).1)) ∧
    (∀ cs2 : VCString,
      OnRaw env { self with m_vsClientCharsets := c :: cs2 } sLine = OnRaw env self sLine) ∧
    (∀ ss2 : VCString,
      OnUserRaw env { self with m_vsServerCharsets := s :: ss2 } sLine =
        OnUserRaw env self sLine) := by
  refine ⟨?_, ?_, ?_, ?_⟩
  · simp only [OnRaw, hc, hs, ConvertCharsetList, srcCharsets_eq,
      convertLoop_eq_specConvert]
  · intro ho
    simp only [OnUserRaw, ho, Bool.not_false, if_true, hc, hs, ConvertCharsetList,
      srcCharsets_eq, convertLoop_eq_specConvert]
  · intro cs2
    simp only [OnRaw, hc, ConvertCharsetList, srcCharsets]
  · intro ss2
    simp only [OnUserRaw, hs, ConvertCharsetList, srcCharsets]

/-- Witness of C6: client list `UTF-8, TIS-620`, server list `ISO-8859-1`,
no guessing, and the ISO-8859-1 bytes of the word cafe with an acute accent. -/
theorem OnRaw_OnUserRaw_eq_specConvert_witness :
    OnRaw stubEnv (moduleWith ["UTF-8".toList, "TIS-620".toList] ["ISO-8859-1".toList]
        false false) ['c', 'a', 'f', Char.ofNat 0xE9] =
      some (EModRet.CONTINUE, ['c', 'a', 'f', Char.ofNat 0xC3, Char.ofNat 0xA9]) ∧
    (OnRaw stubEnv (moduleWith ["UTF-8".toList, "TIS-620".toList] ["ISO-8859-1".toList]
          false false) ['c', 'a', 'f', Char.ofNat 0xE9] =
        some (EModRet.CONTINUE,
          (specConvert stubEnv (specCandidates stubEnv false ["ISO-8859-1".toList]
            ['c', 'a', 'f', Char.ofNat 0xE9]) "UTF-8".toList
            ['c', 'a', 'f', Char.ofNat 0xE9]).1) ∧
      ((moduleWith ["UTF-8".toList, "TIS-620".toList] ["ISO-8859-1".toList]
          false false).m_bOnlyServer = false →
        OnUserRaw stubEnv (moduleWith ["UTF-8".toList, "TIS-620".toList]
            ["ISO-8859-1".toList] false false) ['c', 'a', 'f', Char.ofNat 0xE9] =
          some (EModRet.CONTINUE,
            (specConvert stubEnv (specCandidates stubEnv false
              ["UTF-8".toList, "TIS-620".toList] ['c', 'a', 'f', Char.ofNat 0xE9])
              "ISO-8859-1".toList ['c', 'a', 'f', Char.ofNat 0xE9]).1)) ∧
      (∀ cs2 : VCString,
        OnRaw stubEnv { moduleWith ["UTF-8".toList, "TIS-620".toList] ["ISO-8859-1".toList]
            false false with m_vsClientCharsets := "UTF-8".toList :: cs2 }
            ['c', 'a', 'f', Char.ofNat 0xE9] =
          OnRaw stubEnv (moduleWith ["UTF-8".toList, "TIS-620".toList]
            ["ISO-8859-1".toList] false false) ['c', 'a', 'f', Char.ofNat 0xE9]) ∧
      (∀ ss2 : VCString,
        OnUserRaw stubEnv { moduleWith ["UTF-8".toList, "TIS-620".toList]
            ["ISO-8859-1".toList] false false with
            m_vsServerCharsets := "ISO-8859-1".toList :: ss2 }
            ['c', 'a', 'f', Char.ofNat 0xE9] =
          OnUserRaw stubEnv (moduleWith ["UTF-8".toList, "TIS-620".toList]
            ["ISO-8859-1".toList] false false) ['c', 'a', 'f', Char.ofNat 0xE9])) :=
  ⟨by decide,
    OnRaw_OnUserRaw_eq_specConvert stubEnv
      (moduleWith ["UTF-8".toList, "TIS-620".toList] ["ISO-8859-1".toList] false false)
      "UTF-8".toList "ISO-8859-1".toList ["TIS-620".toList] []
      ['c', 'a', 'f', Char.ofNat 0xE9] rfl rfl⟩

/-! ## The output buffer -/

/-- C7, the code at a failing input: the server list is `TIS-620`, the
client list `UTF-8`, and the line is 700 bytes `0xA1` (700 times the Thai
letter KO KAI). The complete UTF-8 text has 2100 bytes, `ucnv_convert` fills
the 2088 bytes of `buf`, reports `U_BUFFER_OVERFLOW_ERROR` and returns 2100.
`ConvertCharset` returns true and the buffer becomes 2100 bytes long: more
than `CONVERT_BUFFER_LEN`, with byte 2088 read from the stack after `buf`. -/
theorem ConvertCharset_overflow_reads_past_buf :
    CONVERT_BUFFER_LEN = 2088 ∧
    (stubEnv.ucnv_convert "UTF-8".toList "TIS-620".toList CONVERT_BUFFER_LEN
      (List.replicate 700 (Char.ofNat 0xA1))).uErr = U_BUFFER_OVERFLOW_ERROR ∧
    (stubEnv.ucnv_convert "UTF-8".toList "TIS-620".toList CONVERT_BUFFER_LEN
      (List.replicate 700 (Char.ofNat 0xA1))).nBytes = 2100 ∧
    (ConvertCharset stubEnv "TIS-620".toList "UTF-8".toList
      (List.replicate 700 (Char.ofNat 0xA1))).1 = true ∧
    (ConvertCharset stubEnv "TIS-620".toList "UTF-8".toList
      (List.replicate 700 (Char.ofNat 0xA1))).2.length = 2100 ∧
    ¬ ((ConvertCharset stubEnv "TIS-620".toList "UTF-8".toList
      (List.replicate 700 (Char.ofNat 0xA1))).2.length ≤ CONVERT_BUFFER_LEN) ∧
    (ConvertCharset stubEnv "TIS-620".toList "UTF-8".toList
      (List.replicate 700 (Char.ofNat 0xA1))).2.getD 2088 'x' = stubEnv.stackAfter 0 := by
  have hcap : CONVERT_BUFFER_LEN = 2088 := by decide
  have hnames : ("UTF-8".toList ∈ stubNames ∧ "TIS-620".toList ∈ stubNames) := by decide
  have henc : (stubEncode "TIS-620".toList (Char.ofNat 0xA1)).length = 3 := by decide
  have hn := stubConvert_nBytes "UTF-8".toList "TIS-620".toList CONVERT_BUFFER_LEN
    (List.replicate 700 (Char.ofNat 0xA1)) hnames
  rw [length_flatten_map_replicate, henc] at hn
  have he := stubConvert_overflow "UTF-8".toList "TIS-620".toList CONVERT_BUFFER_LEN
    (List.replicate 700 (Char.ofNat 0xA1)) hnames
    (by rw [length_flatten_map_replicate, henc, hcap]; omega)
  rw [← stubEnv_ucnv_convert] at hn he
  have hres := ConvertCharset_of_overflow stubEnv "TIS-620".toList "UTF-8".toList
    (List.replicate 700 (Char.ofNat 0xA1)) he
  refine ⟨hcap, he, hn, ?_, ?_, ?_, ?_⟩
  · simp only [hres]
  · simp only [hres, length_assign, hn]
  · simp only [hres, length_assign, hn]
    rw [hcap]
    omega
  · simp only [hres]
    rw [getD_assign _ _ _ _ _ (by rw [hn]; omega)]
    simp [bufByte, hcap]

/-- C3, the code at a failing input: the list form with the one candidate
`TIS-620`, target `UTF-8` and the line of 700 bytes `0xA1`. The candidate
converts, the list form returns true, and the resulting buffer has 2100
bytes, while the output `ucnv_convert` wrote for the original line has the
2088 bytes of `buf`: the result is not the primitive's output, its byte 2088
comes from the stack after `buf`. -/
theorem ConvertCharsetList_overflow_not_primitive_output :
    (ConvertCharsetList stubEnv (moduleWith ["UTF-8".toList] ["TIS-620".toList] false false)
      ["TIS-620".toList] "UTF-8".toList (List.replicate 700 (Char.ofNat 0xA1))).1 = true ∧
    (ConvertCharsetList stubEnv (moduleWith ["UTF-8".toList] ["TIS-620".toList] false false)
      ["TIS-620".toList] "UTF-8".toList (List.replicate 700 (Char.ofNat 0xA1))).2.length =
        2100 ∧
    (stubEnv.ucnv_convert "UTF-8".toList "TIS-620".toList CONVERT_BUFFER_LEN
      (List.replicate 700 (Char.ofNat 0xA1))).written.length = 2088 ∧
    (ConvertCharsetList stubEnv (moduleWith ["UTF-8".toList] ["TIS-620".toList] false false)
      ["TIS-620".toList] "UTF-8".toList (List.replicate 700 (Char.ofNat 0xA1))).2 ≠
      (stubEnv.ucnv_convert "UTF-8".toList "TIS-620".toList CONVERT_BUFFER_LEN
        (List.replicate 700 (Char.ofNat 0xA1))).written ∧
    (ConvertCharsetList stubEnv (moduleWith ["UTF-8".toList] ["TIS-620".toList] false false)
      ["TIS-620".toList] "UTF-8".toList (List.replicate 700 (Char.ofNat 0xA1))).2.getD 2088 'x' =
      stubEnv.stackAfter 0 := by
  have hcap : CONVERT_BUFFER_LEN = 2088 := by decide
  have hnames : ("UTF-8".toList ∈ stubNames ∧ "TIS-620".toList ∈ stubNames) := by decide
  have henc : (stubEncode "TIS-620".toList (Char.ofNat 0xA1)).length = 3 := by decide
  have hn := stubConvert_nBytes "UTF-8".toList "TIS-620".toList CONVERT_BUFFER_LEN
    (List.replicate 700 (Char.ofNat 0xA1)) hnames
  rw [length_flatten_map_replicate, henc] at hn
  have he := stubConvert_overflow "UTF-8".toList "TIS-620".toList CONVERT_BUFFER_LEN
    (List.replicate 700 (Char.ofNat 0xA1)) hnames
    (by rw [length_flatten_map_replicate, henc, hcap]; omega)
  have hw := stubConvert_written_length "UTF-8".toList "TIS-620".toList CONVERT_BUFFER_LEN
    (List.replicate 700 (Char.ofNat 0xA1)) hnames
  rw [length_flatten_map_replicate, henc, hcap] at hw
  have hw2 : (stubConvert "UTF-8".toList "TIS-620".toList 2088
      (List.replicate 700 (Char.ofNat 0xA1))).written.length = 2088 := by
    rw [hw]
    omega
  rw [← hcap, ← stubEnv_ucnv_convert] at hw2
  rw [← stubEnv_ucnv_convert] at hn he
  have hres := ConvertCharset_of_overflow stubEnv "TIS-620".toList "UTF-8".toList
    (List.replicate 700 (Char.ofNat 0xA1)) he
  have hlist : ConvertCharsetList stubEnv
      (moduleWith ["UTF-8".toList] ["TIS-620".toList] false false)
      ["TIS-620".toList] "UTF-8".toList (List.replicate 700 (Char.ofNat 0xA1)) =
      (true, assign stubEnv
        (stubEnv.ucnv_convert "UTF-8".toList "TIS-620".toList CONVERT_BUFFER_LEN
          (List.replicate 700 (Char.ofNat 0xA1))).written
        (stubEnv.ucnv_convert "UTF-8".toList "TIS-620".toList CONVERT_BUFFER_LEN
          (List.replicate 700 (Char.ofNat 0xA1))).nBytes) := by
    unfold ConvertCharsetList
    rw [srcCharsets_of_not_guess _ _ _ _ rfl]
    have := convertLoop_first stubEnv "UTF-8".toList (List.replicate 700 (Char.ofNat 0xA1))
      [] [] "TIS-620".toList (fun x hx => absurd hx (List.not_mem_nil x)) (by rw [hres])
    rw [List.nil_append] at this
    rw [this, hres]
  have hlen : (assign stubEnv
      (stubEnv.ucnv_convert "UTF-8".toList "TIS-620".toList CONVERT_BUFFER_LEN
        (List.replicate 700 (Char.ofNat 0xA1))).written
      (stubEnv.ucnv_convert "UTF-8".toList "TIS-620".toList CONVERT_BUFFER_LEN
        (List.replicate 700 (Char.ofNat 0xA1))).nBytes).length = 2100 := by
    rw [length_assign, hn]
  refine ⟨?_, ?_, hw2, ?_, ?_⟩
  · simp only [hlist]
  · simp only [hlist]
    exact hlen
  · simp only [hlist]
    intro heq
    have := congrArg List.length heq
    rw [hlen, hw2] at this
    omega
  · simp only [hlist]
    rw [getD_assign _ _ _ _ _ (by rw [hn]; omega)]
    simp [bufByte, hcap]

/-! ## Validation at load time: what `OnLoad` reports -/

/-- C8 as stated fails when `-guess` is given and the detector cannot be
opened: the arguments `-guess Not-A-Real-Charset UTF-8` are well formed and
name an unresolvable charset, yet the message is the one about the detector,
not `Cannot convert` with a name of the lists. -/
theorem OnLoad_cannot_convert_counterexample :
    listTokens "-guess Not-A-Real-Charset UTF-8".toList = 2 ∧
    clientArg "-guess Not-A-Real-Charset UTF-8".toList = ["Not-A-Real-Charset".toList] ∧
    serverArg "-guess Not-A-Real-Charset UTF-8".toList = ["UTF-8".toList] ∧
    CanConvertToUnicode stubEnvNoDetector "Not-A-Real-Charset".toList = false ∧
    (OnLoad stubEnvNoDetector CCharsetMod.construct
      "-guess Not-A-Real-Charset UTF-8".toList []).ret = false ∧
    (OnLoad stubEnvNoDetector CCharsetMod.construct
      "-guess Not-A-Real-Charset UTF-8".toList []).sMessage = detectorMessage ∧
    ∀ n ∈ clientArg "-guess Not-A-Real-Charset UTF-8".toList ++
        serverArg "-guess Not-A-Real-Charset UTF-8".toList,
      (OnLoad stubEnvNoDetector CCharsetMod.construct
        "-guess Not-A-Real-Charset UTF-8".toList []).sMessage ≠ cannotConvert n := by
  decide

/-- C8, amended: for every well-formed argument string (optional flags
followed by exactly two list words, each holding at least one name) for
which the detector opens when `-guess` is given, if some name of either list
is not resolvable then `OnLoad` returns false and sets the message to
`Cannot convert '<name>'.` where `<name>` is an unresolvable name taken
verbatim from one of the two lists; when one name only is unresolvable, the
message names that name. -/
theorem OnLoad_cannot_convert (env : Env) (self : CCharsetMod) (sArgs sMessage : CString)
    (hdet : detectorOk env sArgs = true) (hform : listTokens sArgs = 2)
    (hclient : clientArg sArgs ≠ []) (hserver : serverArg sArgs ≠ [])
    (hbad : ∃ n ∈ clientArg sArgs ++ serverArg sArgs, CanConvertToUnicode env n = false) :
    (OnLoad env self sArgs sMessage).ret = false ∧
    (∃ name ∈ clientArg sArgs ++ serverArg sArgs,
      CanConvertToUnicode env name = false ∧
      (OnLoad env self sArgs sMessage).sMessage = cannotConvert name) ∧
    (∀ only : CString,
      (∀ n ∈ clientArg sArgs ++ serverArg sArgs,
        CanConvertToUnicode env n = false → n = only) →
      (OnLoad env self sArgs sMessage).sMessage = cannotConvert only) := by
  have h2 : (tokenize sArgs []).length - listIndex sArgs = 2 := hform
  rw [OnLoad_eq_OnLoadLists env self sArgs sMessage hdet,
    OnLoadLists_probe env _ sArgs sMessage _ h2]
  cases hp : (probeOuter env (Split (Token sArgs (listIndex sArgs + 1)))
      (Split (Token sArgs (listIndex sArgs)))).failed with
  | none =>
    exfalso
    obtain ⟨n, hn, hb⟩ := hbad
    rcases (probeOuter_failed_none env _ _).mp hp with h0 | h0 | h0
    · exact hclient h0
    · exact hserver h0
    · have hr : CanConvertToUnicode env n = true := by
        rcases List.mem_append.mp hn with hn | hn
        · exact h0.1 n hn
        · exact h0.2 n hn
      rw [hb] at hr
      exact Bool.false_ne_true hr
  | some bad =>
    obtain ⟨hm, hb⟩ := probeOuter_failed_some env _ _ bad hp
    refine ⟨rfl, ⟨bad, hm, hb, rfl⟩, ?_⟩
    intro only honly
    show cannotConvert bad = cannotConvert only
    rw [honly bad hm hb]

/-- Witness of C8: `TIS-62` in the client list is the one unresolvable name. -/
theorem OnLoad_cannot_convert_witness :
    detectorOk stubEnv "-guess UTF-8,TIS-62 ISO-8859-1".toList = true ∧
    listTokens "-guess UTF-8,TIS-62 ISO-8859-1".toList = 2 ∧
    clientArg "-guess UTF-8,TIS-62 ISO-8859-1".toList = ["UTF-8".toList, "TIS-62".toList] ∧
    serverArg "-guess UTF-8,TIS-62 ISO-8859-1".toList = ["ISO-8859-1".toList] ∧
    (OnLoad stubEnv CCharsetMod.construct "-guess UTF-8,TIS-62 ISO-8859-1".toList []).sMessage =
      cannotConvert "TIS-62".toList ∧
    ((OnLoad stubEnv CCharsetMod.construct "-guess UTF-8,TIS-62 ISO-8859-1".toList []).ret =
        false ∧
      (∃ name ∈ clientArg "-guess UTF-8,TIS-62 ISO-8859-1".toList ++
          serverArg "-guess UTF-8,TIS-62 ISO-8859-1".toList,
        CanConvertToUnicode stubEnv name = false ∧
        (OnLoad stubEnv CCharsetMod.construct
          "-guess UTF-8,TIS-62 ISO-8859-1".toList []).sMessage = cannotConvert name) ∧
      (∀ only : CString,
        (∀ n ∈ clientArg "-guess UTF-8,TIS-62 ISO-8859-1".toList ++
            serverArg "-guess UTF-8,TIS-62 ISO-8859-1".toList,
          CanConvertToUnicode stubEnv n = false → n = only) →
        (OnLoad stubEnv CCharsetMod.construct
          "-guess UTF-8,TIS-62 ISO-8859-1".toList []).sMessage = cannotConvert only)) :=
  ⟨by decide, by decide, by decide, by decide, by decide,
    OnLoad_cannot_convert stubEnv CCharsetMod.construct
      "-guess UTF-8,TIS-62 ISO-8859-1".toList [] (by decide) (by decide) (by decide)
      (by decide) ⟨"TIS-62".toList, by decide, by decide⟩⟩

/-- C9 as stated fails when `-guess` is given and the detector cannot be
opened: the argument string `-guess` has no list word after the flag, yet
the message is the one about the detector, not the usage message. -/
theorem OnLoad_usage_counterexample :
    listTokens "-guess".toList = 0 ∧
    (OnLoad stubEnvNoDetector CCharsetMod.construct "-guess".toList []).ret = false ∧
    (OnLoad stubEnvNoDetector CCharsetMod.construct "-guess".toList []).sMessage =
      detectorMessage ∧
    (OnLoad stubEnvNoDetector CCharsetMod.construct "-guess".toList []).sMessage ≠
      usageMessage := by
  decide

/-- C9, amended: for every argument string that, after the optional `-guess`
and `-onlyserver` flags, does not contain exactly two words, `OnLoad` returns
false and no charset name is probed; the message is the usage message
(the module needs two charset lists as arguments), unless `-guess` was given
and the detector could not be opened, in which case it says so. -/
theorem OnLoad_usage (env : Env) (self : CCharsetMod) (sArgs sMessage : CString)
    (h : listTokens sArgs ≠ 2) :
    (OnLoad env self sArgs sMessage).ret = false ∧
    (OnLoad env self sArgs sMessage).probed = [] ∧
    (detectorOk env sArgs = true →
      (OnLoad env self sArgs sMessage).sMessage = usageMessage) ∧
    (detectorOk env sArgs = false →
      (OnLoad env self sArgs sMessage).sMessage = detectorMessage) := by
  have h2 : (tokenize sArgs []).length - listIndex sArgs ≠ 2 := h
  by_cases hd : detectorOk env sArgs = true
  · rw [OnLoad_eq_OnLoadLists env self sArgs sMessage hd,
      OnLoadLists_usage env _ sArgs sMessage _ h2]
    refine ⟨rfl, rfl, fun _ => rfl, ?_⟩
    intro hf
    rw [hd] at hf
    exact absurd hf (by simp)
  · have hd0 : detectorOk env sArgs = false := by simpa using hd
    rw [OnLoad_detector_fails env self sArgs sMessage hd0]
    exact ⟨rfl, rfl, fun ht => absurd ht hd, fun _ => rfl⟩

/-- Witness of C9: the second list is missing after both flags. -/
theorem OnLoad_usage_witness :
    listTokens "-guess -onlyserver UTF-8".toList ≠ 2 ∧
    detectorOk stubEnv "-guess -onlyserver UTF-8".toList = true ∧
    ((OnLoad stubEnv CCharsetMod.construct "-guess -onlyserver UTF-8".toList []).ret = false ∧
      (OnLoad stubEnv CCharsetMod.construct "-guess -onlyserver UTF-8".toList []).probed = [] ∧
      (detectorOk stubEnv "-guess -onlyserver UTF-8".toList = true →
        (OnLoad stubEnv CCharsetMod.construct "-guess -onlyserver UTF-8".toList []).sMessage =
          usageMessage) ∧
      (detectorOk stubEnv "-guess -onlyserver UTF-8".toList = false →
        (OnLoad stubEnv CCharsetMod.construct "-guess -onlyserver UTF-8".toList []).sMessage =
          detectorMessage)) :=
  ⟨by decide, by decide,
    OnLoad_usage stubEnv CCharsetMod.construct "-guess -onlyserver UTF-8".toList []
      (by decide)⟩

/-- Outside the failing inputs of C10: whenever `OnLoad` returns true on
arguments whose list words each hold a name, the stored lists are both
non-empty, every stored name is resolvable, and `OnRaw` and `OnUserRaw` find
their entry `[0]` for every line. -/
theorem OnLoad_true_valid_of_names (env : Env) (self : CCharsetMod)
    (sArgs sMessage : CString) (h : (OnLoad env self sArgs sMessage).ret = true)
    (hnames : listWordsHaveNames sArgs = true) :
    (OnLoad env self sArgs sMessage).self.m_vsClientCharsets ≠ [] ∧
    (OnLoad env self sArgs sMessage).self.m_vsServerCharsets ≠ [] ∧
    (∀ n ∈ (OnLoad env self sArgs sMessage).self.m_vsClientCharsets ++
        (OnLoad env self sArgs sMessage).self.m_vsServerCharsets,
      CanConvertToUnicode env n = true) ∧
    (∀ sLine : CString,
      (OnRaw env (OnLoad env self sArgs sMessage).self sLine).isSome = true ∧
      (OnUserRaw env (OnLoad env self sArgs sMessage).self sLine).isSome = true) := by
  obtain ⟨_, h2, hp, hself⟩ := OnLoad_true_self env self sArgs sMessage h
  have hne := lists_ne_nil_of_names sArgs h2 hnames
  have hc : (OnLoad env self sArgs sMessage).self.m_vsClientCharsets = clientArg sArgs := by
    rw [hself]
  have hs : (OnLoad env self sArgs sMessage).self.m_vsServerCharsets = serverArg sArgs := by
    rw [hself]
  have hcne : clientArg sArgs ≠ [] := hne.1
  have hsne : serverArg sArgs ≠ [] := hne.2
  refine ⟨by rw [hc]; exact hcne, by rw [hs]; exact hsne, ?_, ?_⟩
  · rw [hc, hs]
    intro n hn
    rcases (probeOuter_failed_none env _ _).mp hp with h0 | h0 | h0
    · exact absurd h0 hcne
    · exact absurd h0 hsne
    · rcases List.mem_append.mp hn with hn | hn
      · exact h0.1 n hn
      · exact h0.2 n hn
  · intro sLine
    constructor
    · unfold OnRaw
      rw [hc]
      cases hcl : clientArg sArgs with
      | nil => exact absurd hcl hcne
      | cons a l => rfl
    · unfold OnUserRaw
      rw [hs]
      cases hsl : serverArg sArgs with
      | nil => exact absurd hsl hsne
      | cons a l =>
        by_cases ho : (OnLoad env self sArgs sMessage).self.m_bOnlyServer = true
        · simp [ho]
        · simp [ho]

/-! ## Guessing is advisory; idempotence and round trip -/

theorem convertLoop_skip_failing (env : Env) (sTo sData : CString) (pre rest : VCString)
    (hpre : ∀ x ∈ pre, (ConvertCharset env x sTo sData).1 = false) :
    convertLoop env sTo (pre ++ rest) sData sData = convertLoop env sTo rest sData sData := by
  induction pre with
  | nil => rfl
  | cons x l ih =>
    have hx := hpre x (List.mem_cons_self _ _)
    simp only [List.cons_append, convertLoop, hx, Bool.false_eq_true, if_false]
    exact ih (fun y hy => hpre y (List.mem_cons_of_mem _ hy))

theorem U_FAILURE_of_U_SUCCESS (x : UErrorCode) (h : U_SUCCESS x = true) : U_FAILURE x = false := by
  simp only [U_SUCCESS, U_FAILURE, U_ZERO_ERROR, decide_eq_true_eq,
    decide_eq_false_iff_not] at h ⊢
  exact Int.not_lt.mpr h

/-- Reading `n` bytes at `buf` gives back what was written when exactly `n`
bytes were written and they fit the array. -/
theorem assign_eq_of_fit (env : Env) (written : CString)
    (hfit : written.length ≤ CONVERT_BUFFER_LEN) :
    assign env written written.length = written := by
  apply List.ext_getElem
  · exact length_assign env written written.length
  · intro i h1 h2
    simp only [assign, List.getElem_map, List.getElem_range, bufByte]
    have hi : i < CONVERT_BUFFER_LEN := Nat.lt_of_lt_of_le h2 hfit
    rw [if_pos hi, List.take_of_length_le hfit, List.getD_eq_getElem _ _ h2]

/-- When the primitive converts with the complete output `out`, the single
`ConvertCharset` returns true and leaves `out`. -/
theorem ConvertCharset_of_convertsTo (env : Env) (sFrom sTo sData out : CString)
    (h : convertsTo env sFrom sTo sData out = true) :
    ConvertCharset env sFrom sTo sData = (true, out) := by
  simp only [convertsTo, Bool.and_eq_true, decide_eq_true_eq] at h
  obtain ⟨⟨⟨hok, hw⟩, hn⟩, hfit⟩ := h
  have hf := U_FAILURE_of_U_SUCCESS _ hok
  simp only [ConvertCharset, hf, Bool.false_and, Bool.false_eq_true, if_false, hw, hn]
  rw [assign_eq_of_fit env out hfit]

/-- C11: with guessing enabled, if for a given buffer the detector fails
(`ucsdet_setText` or `ucsdet_detectAll` reports an error) or returns no
candidates, or every detected candidate fails to convert the buffer, then the
list form of `ConvertCharset` gives the same return value and the same
resulting buffer as with guessing disabled, on the same configured list,
target and buffer. -/
theorem ConvertCharsetList_guess_advisory (env : Env) (self : CCharsetMod) (vsFrom : VCString)
    (t b : CString) (hg : self.m_bGuess = true)
    (h : U_SUCCESS (env.ucsdet_setText b) = false ∨
      U_SUCCESS (env.ucsdet_detectAll b).2 = false ∨
      (env.ucsdet_detectAll b).1 = [] ∨
      ∀ c ∈ detected env b, (ConvertCharset env c t b).1 = false) :
    ConvertCharsetList env self vsFrom t b =
      ConvertCharsetList env { self with m_bGuess := false } vsFrom t b := by
  have hfail : ∀ c ∈ detected env b, (ConvertCharset env c t b).1 = false := by
    rcases h with h | h | h | h
    · rw [detected_of_failure env b (Or.inl h)]
      intro c hc
      exact absurd hc (List.not_mem_nil c)
    · rw [detected_of_failure env b (Or.inr h)]
      intro c hc
      exact absurd hc (List.not_mem_nil c)
    · have hd : detected env b = [] := by
        by_cases h1 : U_SUCCESS (env.ucsdet_setText b) = true
        · by_cases h2 : U_SUCCESS (env.ucsdet_detectAll b).2 = true
          · rw [detected_of_success env b h1 h2, h]
          · exact detected_of_failure env b (Or.inr (by simpa using h2))
        · exact detected_of_failure env b (Or.inl (by simpa using h1))
      rw [hd]
      intro c hc
      exact absurd hc (List.not_mem_nil c)
    · exact h
  have hon : srcCharsets env self vsFrom b = detected env b ++ vsFrom := by
    simp [srcCharsets, detected, hg]
  have hoff : srcCharsets env { self with m_bGuess := false } vsFrom b = vsFrom := by
    simp [srcCharsets]
  unfold ConvertCharsetList
  rw [hon, hoff]
  exact convertLoop_skip_failing env t b (detected env b) vsFrom hfail

/-- Witness of C11: the detector ranks only `ISO-2022-JP`, which has no
converter; the configured `ISO-8859-1` then converts the line as it does
without guessing. -/
theorem ConvertCharsetList_guess_advisory_witness :
    (∀ c ∈ detected { stubEnv with
          ucsdet_detectAll := fun _ => (["ISO-2022-JP".toList], U_ZERO_ERROR) }
        ['c', 'a', 'f', Char.ofNat 0xE9],
      (ConvertCharset { stubEnv with
          ucsdet_detectAll := fun _ => (["ISO-2022-JP".toList], U_ZERO_ERROR) }
        c "UTF-8".toList ['c', 'a', 'f', Char.ofNat 0xE9]).1 = false) ∧
    ConvertCharsetList { stubEnv with
        ucsdet_detectAll := fun _ => (["ISO-2022-JP".toList], U_ZERO_ERROR) }
      (moduleWith [] [] true false) ["ISO-8859-1".toList] "UTF-8".toList
      ['c', 'a', 'f', Char.ofNat 0xE9] =
      (true, ['c', 'a', 'f', Char.ofNat 0xC3, Char.ofNat 0xA9]) ∧
    ConvertCharsetList { stubEnv with
        ucsdet_detectAll := fun _ => (["ISO-2022-JP".toList], U_ZERO_ERROR) }
      (moduleWith [] [] true false) ["ISO-8859-1".toList] "UTF-8".toList
      ['c', 'a', 'f', Char.ofNat 0xE9] =
      ConvertCharsetList { stubEnv with
        ucsdet_detectAll := fun _ => (["ISO-2022-JP".toList], U_ZERO_ERROR) }
      { moduleWith [] [] true false with m_bGuess := false } ["ISO-8859-1".toList]
      "UTF-8".toList ['c', 'a', 'f', Char.ofNat 0xE9] :=
  ⟨by decide, by decide,
    ConvertCharsetList_guess_advisory
      { stubEnv with ucsdet_detectAll := fun _ => (["ISO-2022-JP".toList], U_ZERO_ERROR) }
      (moduleWith [] [] true false) ["ISO-8859-1".toList] "UTF-8".toList
      ['c', 'a', 'f', Char.ofNat 0xE9] rfl (Or.inr (Or.inr (Or.inr (by decide))))⟩

/-- C12: idempotence. For every buffer `b` already in the target encoding
`t`, that is, the external primitive converts `b` from `c` to `t`
successfully with output `b` (`c` being `t` itself or an encoding
byte-compatible with it), and every candidate list whose first successfully
converting entry is `c`, the list form of `ConvertCharset` returns true and
leaves the buffer equal to `b`. -/
theorem ConvertCharsetList_idempotent (env : Env) (self : CCharsetMod) (vsFrom : VCString)
    (t b c : CString) (pre post : VCString)
    (hsplit : srcCharsets env self vsFrom b = pre ++ c :: post)
    (hpre : ∀ x ∈ pre, (ConvertCharset env x t b).1 = false)
    (hsame : convertsTo env c t b b = true) :
    ConvertCharsetList env self vsFrom t b = (true, b) := by
  have hc := ConvertCharset_of_convertsTo env c t b b hsame
  unfold ConvertCharsetList
  rw [hsplit, convertLoop_first env t b pre post c hpre (by rw [hc]), hc]

/-- Witness of C12: the ASCII line `abc` is already UTF-8; the candidate list
`Not-A-Real-Charset, ISO-8859-1, TIS-620` has `ISO-8859-1` (byte-compatible
on ASCII) as its first converting entry, and the line comes back as it was. -/
theorem ConvertCharsetList_idempotent_witness :
    convertsTo stubEnv "ISO-8859-1".toList "UTF-8".toList "abc".toList "abc".toList = true ∧
    ConvertCharsetList stubEnv (moduleWith [] [] false false)
        ["Not-A-Real-Charset".toList, "ISO-8859-1".toList, "TIS-620".toList]
        "UTF-8".toList "abc".toList = (true, "abc".toList) :=
  ⟨by decide,
    ConvertCharsetList_idempotent stubEnv (moduleWith [] [] false false)
      ["Not-A-Real-Charset".toList, "ISO-8859-1".toList, "TIS-620".toList]
      "UTF-8".toList "abc".toList "ISO-8859-1".toList
      ["Not-A-Real-Charset".toList] ["TIS-620".toList] (by decide) (by decide) (by decide)⟩

/-- C13: round trip. With guessing off, only-server off, client list `[C]`
and server list `[S]`, for every buffer `b` such that the external primitive
converts `b` from `S` to `C` successfully giving `b2` and converts `b2` from
`C` to `S` successfully giving `b`, `OnRaw` turns `b` into `b2` and
`OnUserRaw` applied to `b2` gives back the original `b`. -/
theorem OnRaw_OnUserRaw_round_trip (env : Env) (self : CCharsetMod) (C S b b2 : CString)
    (hclient : self.m_vsClientCharsets = [C]) (hserver : self.m_vsServerCharsets = [S])
    (hguess : self.m_bGuess = false) (honly : self.m_bOnlyServer = false)
    (hto : convertsTo env S C b b2 = true) (hback : convertsTo env C S b2 b = true) :
    OnRaw env self b = some (EModRet.CONTINUE, b2) ∧
    OnUserRaw env self b2 = some (EModRet.CONTINUE, b) := by
  have h1 := ConvertCharset_of_convertsTo env S C b b2 hto
  have h2 := ConvertCharset_of_convertsTo env C S b2 b hback
  constructor
  · simp [OnRaw, hclient, hserver, ConvertCharsetList, srcCharsets, hguess, convertLoop, h1]
  · simp [OnUserRaw, honly, hclient, hserver, ConvertCharsetList, srcCharsets, hguess,
      convertLoop, h2]

/-- Witness of C13 (scenario A): `C` is `UTF-8`, `S` is `ISO-8859-1`, and `b`
is the ISO-8859-1 bytes `63 61 66 E9` of the word cafe with an acute accent;
`b2` is its UTF-8 form `63 61 66 C3 A9`. -/
theorem OnRaw_OnUserRaw_round_trip_witness :
    convertsTo stubEnvLatin1 "ISO-8859-1".toList "UTF-8".toList
      ['c', 'a', 'f', Char.ofNat 0xE9] ['c', 'a', 'f', Char.ofNat 0xC3, Char.ofNat 0xA9] = true ∧
    convertsTo stubEnvLatin1 "UTF-8".toList "ISO-8859-1".toList
      ['c', 'a', 'f', Char.ofNat 0xC3, Char.ofNat 0xA9] ['c', 'a', 'f', Char.ofNat 0xE9] = true ∧
    (OnRaw stubEnvLatin1 (moduleWith ["UTF-8".toList] ["ISO-8859-1".toList] false false)
        ['c', 'a', 'f', Char.ofNat 0xE9] =
        some (EModRet.CONTINUE, ['c', 'a', 'f', Char.ofNat 0xC3, Char.ofNat 0xA9]) ∧
      OnUserRaw stubEnvLatin1 (moduleWith ["UTF-8".toList] ["ISO-8859-1".toList] false false)
        ['c', 'a', 'f', Char.ofNat 0xC3, Char.ofNat 0xA9] =
        some (EModRet.CONTINUE, ['c', 'a', 'f', Char.ofNat 0xE9])) :=
  ⟨by decide, by decide,
    OnRaw_OnUserRaw_round_trip stubEnvLatin1
      (moduleWith ["UTF-8".toList] ["ISO-8859-1".toList] false false)
      "UTF-8".toList "ISO-8859-1".toList
      ['c', 'a', 'f', Char.ofNat 0xE9] ['c', 'a', 'f', Char.ofNat 0xC3, Char.ofNat 0xA9]
      rfl rfl rfl rfl (by decide) (by decide)⟩

/-! ## Frame and independence -/

theorem afterFlags_lists (env : Env) (self : CCharsetMod) (sArgs : CString) :
    (afterFlags env self sArgs).m_vsClientCharsets = self.m_vsClientCharsets ∧
    (afterFlags env self sArgs).m_vsServerCharsets = self.m_vsServerCharsets := by
  unfold afterFlags
  by_cases hg : guessGiven sArgs = true <;> by_cases ho : onlyServerGiven sArgs = true <;>
    simp [hg, ho]

theorem afterFlags_flags (env : Env) (self : CCharsetMod) (sArgs : CString) :
    (afterFlags env self sArgs).m_bGuess = (self.m_bGuess || guessGiven sArgs) ∧
    (afterFlags env self sArgs).m_bOnlyServer = (self.m_bOnlyServer || onlyServerGiven sArgs) := by
  unfold afterFlags
  by_cases hg : guessGiven sArgs = true <;> by_cases ho : onlyServerGiven sArgs = true <;>
    simp [hg, ho]

theorem ConvertCharset_congr (env1 env2 : Env) (hconv : env1.ucnv_convert = env2.ucnv_convert)
    (hstack : env1.stackAfter = env2.stackAfter) (sFrom sTo sData : CString) :
    ConvertCharset env1 sFrom sTo sData = ConvertCharset env2 sFrom sTo sData := by
  have hb : bufByte env1 = bufByte env2 := by
    funext w i
    simp only [bufByte, hstack]
  simp only [ConvertCharset, assign, hb, hconv]

theorem convertLoop_congr (env1 env2 : Env) (hconv : env1.ucnv_convert = env2.ucnv_convert)
    (hstack : env1.stackAfter = env2.stackAfter) (sTo : CString) (cs : VCString)
    (sData sDataCopy : CString) :
    convertLoop env1 sTo cs sData sDataCopy = convertLoop env2 sTo cs sData sDataCopy := by
  induction cs generalizing sDataCopy with
  | nil => rfl
  | cons c rest ih =>
    simp only [convertLoop, ConvertCharset_congr env1 env2 hconv hstack, ih]

/-- C16: when guessing is disabled the detector is never consulted. For
every line and every module with `m_bGuess` false, `OnRaw` and `OnUserRaw`
give the same result under any two environments that agree on the conversion
primitive (and on the memory its output buffer lies in), whatever their
detectors and charset probes do; in particular for any replacement of the
three detector calls. -/
theorem hooks_ignore_detector (env1 env2 : Env) (self : CCharsetMod) (sLine : CString)
    (hg : self.m_bGuess = false)
    (hconv : env1.ucnv_convert = env2.ucnv_convert)
    (hstack : env1.stackAfter = env2.stackAfter) :
    OnRaw env1 self sLine = OnRaw env2 self sLine ∧
    OnUserRaw env1 self sLine = OnUserRaw env2 self sLine ∧
    (∀ (dopen : UErrorCode) (dtext : CString → UErrorCode)
        (dall : CString → VCString × UErrorCode),
      OnRaw { env1 with ucsdet_open := dopen, ucsdet_setText := dtext,
                        ucsdet_detectAll := dall } self sLine = OnRaw env1 self sLine ∧
      OnUserRaw { env1 with ucsdet_open := dopen, ucsdet_setText := dtext,
                            ucsdet_detectAll := dall } self sLine =
        OnUserRaw env1 self sLine) := by
  have hsrc : ∀ (e : Env) (l : VCString), srcCharsets e self l sLine = l := by
    intro e l
    simp [srcCharsets, hg]
  have hlist : ∀ (e1 e2 : Env), e1.ucnv_convert = e2.ucnv_convert →
      e1.stackAfter = e2.stackAfter → ∀ (l : VCString) (t : CString),
      ConvertCharsetList e1 self l t sLine = ConvertCharsetList e2 self l t sLine := by
    intro e1 e2 h1 h2 l t
    unfold ConvertCharsetList
    rw [hsrc e1 l, hsrc e2 l]
    exact convertLoop_congr e1 e2 h1 h2 t l sLine sLine
  have hraw : ∀ (e1 e2 : Env), e1.ucnv_convert = e2.ucnv_convert →
      e1.stackAfter = e2.stackAfter →
      OnRaw e1 self sLine = OnRaw e2 self sLine ∧
        OnUserRaw e1 self sLine = OnUserRaw e2 self sLine := by
    intro e1 e2 h1 h2
    constructor
    · unfold OnRaw
      cases self.m_vsClientCharsets with
      | nil => rfl
      | cons t _ => simp only [hlist e1 e2 h1 h2]
    · unfold OnUserRaw
      cases self.m_vsServerCharsets with
      | nil => rfl
      | cons t _ => simp only [hlist e1 e2 h1 h2]
  refine ⟨(hraw env1 env2 hconv hstack).1, (hraw env1 env2 hconv hstack).2, ?_⟩
  intro dopen dtext dall
  exact hraw _ env1 rfl rfl

/-- Witness of C16: the same line under the example ICU and under one whose
detector cannot be opened and fails on every text. -/
theorem hooks_ignore_detector_witness :
    (moduleWith ["UTF-8".toList] ["ISO-8859-1".toList] false false).m_bGuess = false ∧
    OnRaw stubEnv (moduleWith ["UTF-8".toList] ["ISO-8859-1".toList] false false)
        ['c', 'a', 'f', Char.ofNat 0xE9] =
      some (EModRet.CONTINUE, ['c', 'a', 'f', Char.ofNat 0xC3, Char.ofNat 0xA9]) ∧
    (OnRaw stubEnv (moduleWith ["UTF-8".toList] ["ISO-8859-1".toList] false false)
        ['c', 'a', 'f', Char.ofNat 0xE9] =
      OnRaw stubEnvBadDetector
        (moduleWith ["UTF-8".toList] ["ISO-8859-1".toList] false false)
        ['c', 'a', 'f', Char.ofNat 0xE9] ∧
      OnUserRaw stubEnv (moduleWith ["UTF-8".toList] ["ISO-8859-1".toList] false false)
          ['c', 'a', 'f', Char.ofNat 0xE9] =
        OnUserRaw stubEnvBadDetector
          (moduleWith ["UTF-8".toList] ["ISO-8859-1".toList] false false)
          ['c', 'a', 'f', Char.ofNat 0xE9] ∧
      (∀ (dopen : UErrorCode) (dtext : CString → UErrorCode)
          (dall : CString → VCString × UErrorCode),
        OnRaw { stubEnv with ucsdet_open := dopen, ucsdet_setText := dtext,
                             ucsdet_detectAll := dall }
            (moduleWith ["UTF-8".toList] ["ISO-8859-1".toList] false false)
            ['c', 'a', 'f', Char.ofNat 0xE9] =
          OnRaw stubEnv (moduleWith ["UTF-8".toList] ["ISO-8859-1".toList] false false)
            ['c', 'a', 'f', Char.ofNat 0xE9] ∧
        OnUserRaw { stubEnv with ucsdet_open := dopen, ucsdet_setText := dtext,
                                 ucsdet_detectAll := dall }
            (moduleWith ["UTF-8".toList] ["ISO-8859-1".toList] false false)
            ['c', 'a', 'f', Char.ofNat 0xE9] =
          OnUserRaw stubEnv (moduleWith ["UTF-8".toList] ["ISO-8859-1".toList] false false)
            ['c', 'a', 'f', Char.ofNat 0xE9])) :=
  ⟨rfl, by decide,
    hooks_ignore_detector stubEnv
      stubEnvBadDetector
      (moduleWith ["UTF-8".toList] ["ISO-8859-1".toList] false false)
      ['c', 'a', 'f', Char.ofNat 0xE9] rfl rfl rfl⟩

/-! ## The order of the probes -/

theorem probeInner_failed_of_resolvable (env : Env) (itf : CString) (vsTo : VCString)
    (h : CanConvertToUnicode env itf = true) :
    (probeInner env itf vsTo).failed = firstUnresolvable env vsTo := by
  induction vsTo with
  | nil => rfl
  | cons itt rest ih =>
    by_cases h2 : CanConvertToUnicode env itt = true
    · simp only [probeInner, h, h2, Bool.not_true, Bool.false_eq_true, if_false, ih,
        firstUnresolvable, List.find?_cons]
    · have h2f : CanConvertToUnicode env itt = false := by simpa using h2
      simp only [probeInner, h, h2f, Bool.not_true, Bool.false_eq_true, if_false,
        Bool.not_false, if_true, firstUnresolvable, List.find?_cons]

theorem probeInner_failed_of_unresolvable (env : Env) (itf : CString) (vsTo : VCString)
    (h : CanConvertToUnicode env itf = false) (hne : vsTo ≠ []) :
    (probeInner env itf vsTo).failed = some itf := by
  cases vsTo with
  | nil => exact absurd rfl hne
  | cons itt rest => simp only [probeInner, h, Bool.not_false, if_true]

theorem probeOuter_failed_of_to_resolvable (env : Env) (vsTo vsFrom : VCString)
    (hne : vsTo ≠ []) (hto : firstUnresolvable env vsTo = none) :
    (probeOuter env vsTo vsFrom).failed = firstUnresolvable env vsFrom := by
  induction vsFrom with
  | nil => rfl
  | cons itf rest ih =>
    by_cases h : CanConvertToUnicode env itf = true
    · have hi := probeInner_failed_of_resolvable env itf vsTo h
      rw [hto] at hi
      simp only [probeOuter, hi, ih, firstUnresolvable, List.find?_cons, h, Bool.not_true]
    · have hf : CanConvertToUnicode env itf = false := by simpa using h
      have hi := probeInner_failed_of_unresolvable env itf vsTo hf hne
      simp only [probeOuter, hi, firstUnresolvable, List.find?_cons, hf, Bool.not_false]

theorem probeOuter_nil_to (env : Env) (vsFrom : VCString) :
    probeOuter env [] vsFrom = { probed := [], failed := none } := by
  induction vsFrom with
  | nil => rfl
  | cons itf rest ih => simp [probeOuter, probeInner, ih]

/-- The name the probe stops at, for non-empty lists, in the three cases. -/
theorem probeOuter_failed_order (env : Env) (c0 : CString) (rest vsTo : VCString)
    (hne : vsTo ≠ []) :
    (CanConvertToUnicode env c0 = false →
      (probeOuter env vsTo (c0 :: rest)).failed = some c0) ∧
    (CanConvertToUnicode env c0 = true → ∀ s, firstUnresolvable env vsTo = some s →
      (probeOuter env vsTo (c0 :: rest)).failed = some s) ∧
    (CanConvertToUnicode env c0 = true → firstUnresolvable env vsTo = none →
      (probeOuter env vsTo (c0 :: rest)).failed = firstUnresolvable env (c0 :: rest)) := by
  refine ⟨?_, ?_, ?_⟩
  · intro h
    have hi := probeInner_failed_of_unresolvable env c0 vsTo h hne
    simp only [probeOuter, hi]
  · intro h s hs
    have hi := probeInner_failed_of_resolvable env c0 vsTo h
    rw [hs] at hi
    simp only [probeOuter, hi]
  · intro _ hto
    exact probeOuter_failed_of_to_resolvable env vsTo (c0 :: rest) hne hto

/-- Past the detector and the usage test, a probe that stops makes `OnLoad`
return false with the name it stopped at. -/
theorem OnLoad_of_probe_failed (env : Env) (self : CCharsetMod) (sArgs sMessage : CString)
    (hdet : detectorOk env sArgs = true) (hform : listTokens sArgs = 2) (bad : CString)
    (h : (probeOuter env (serverArg sArgs) (clientArg sArgs)).failed = some bad) :
    (OnLoad env self sArgs sMessage).ret = false ∧
    (OnLoad env self sArgs sMessage).sMessage = cannotConvert bad ∧
    (OnLoad env self sArgs sMessage).self = afterFlags env self sArgs := by
  have h2 : (tokenize sArgs []).length - listIndex sArgs = 2 := hform
  have hp : (probeOuter env (Split (Token sArgs (listIndex sArgs + 1)))
      (Split (Token sArgs (listIndex sArgs)))).failed = some bad := h
  rw [OnLoad_eq_OnLoadLists env self sArgs sMessage hdet,
    OnLoadLists_probe env _ sArgs sMessage _ h2, hp]
  exact ⟨rfl, rfl, rfl⟩

/-- Past the detector and the usage test, the names `OnLoad` has probed are
those of the probe loop. -/
theorem OnLoad_probed (env : Env) (self : CCharsetMod) (sArgs sMessage : CString)
    (hdet : detectorOk env sArgs = true) (hform : listTokens sArgs = 2) :
    (OnLoad env self sArgs sMessage).probed =
      (probeOuter env (serverArg sArgs) (clientArg sArgs)).probed := by
  have h2 : (tokenize sArgs []).length - listIndex sArgs = 2 := hform
  rw [OnLoad_eq_OnLoadLists env self sArgs sMessage hdet,
    OnLoadLists_probe env _ sArgs sMessage _ h2]
  cases hp : (probeOuter env (Split (Token sArgs (listIndex sArgs + 1)))
      (Split (Token sArgs (listIndex sArgs)))).failed with
  | none => rfl
  | some bad => rfl

/-- C17 as stated fails at two inputs. With `Bad-C ISO-8859-1 extra` both
split lists are non-empty and `client[0]` is unresolvable, yet `OnLoad`
reports the usage message and probes nothing, because a third word follows.
With `-guess Bad-C,UTF-8 ISO-8859-1` on a host where the detector cannot be
opened, `client[0]` is again unresolvable and `OnLoad` reports the detector. -/
theorem OnLoad_probe_order_counterexample :
    (clientArg "Bad-C ISO-8859-1 extra".toList = ["Bad-C".toList] ∧
      serverArg "Bad-C ISO-8859-1 extra".toList = ["ISO-8859-1".toList] ∧
      CanConvertToUnicode stubEnv "Bad-C".toList = false ∧
      (OnLoad stubEnv CCharsetMod.construct "Bad-C ISO-8859-1 extra".toList []).ret = false ∧
      (OnLoad stubEnv CCharsetMod.construct "Bad-C ISO-8859-1 extra".toList []).sMessage =
        usageMessage ∧
      (OnLoad stubEnv CCharsetMod.construct "Bad-C ISO-8859-1 extra".toList []).sMessage ≠
        cannotConvert "Bad-C".toList ∧
      (OnLoad stubEnv CCharsetMod.construct "Bad-C ISO-8859-1 extra".toList []).probed = []) ∧
    (clientArg "-guess Bad-C,UTF-8 ISO-8859-1".toList = ["Bad-C".toList, "UTF-8".toList] ∧
      serverArg "-guess Bad-C,UTF-8 ISO-8859-1".toList = ["ISO-8859-1".toList] ∧
      CanConvertToUnicode stubEnvNoDetector "Bad-C".toList = false ∧
      (OnLoad stubEnvNoDetector CCharsetMod.construct
        "-guess Bad-C,UTF-8 ISO-8859-1".toList []).ret = false ∧
      (OnLoad stubEnvNoDetector CCharsetMod.construct
        "-guess Bad-C,UTF-8 ISO-8859-1".toList []).sMessage = detectorMessage ∧
      (OnLoad stubEnvNoDetector CCharsetMod.construct
        "-guess Bad-C,UTF-8 ISO-8859-1".toList []).sMessage ≠ cannotConvert "Bad-C".toList) := by
  decide

/-- C17, amended: the probe order of validation, when the detector opens if
`-guess` is given and exactly two list words follow the flags. When both
split lists are non-empty, `OnLoad` returns false with the message
`Cannot convert '<name>'.` where `<name>` is `client[0]` if `client[0]` is
unresolvable; otherwise the first unresolvable entry of the server list if
there is one; otherwise the first unresolvable entry of the client list.
When the server list is empty no client name is probed at all, and when the
client list is empty no server name is probed. -/
theorem OnLoad_probe_order (env : Env) (self : CCharsetMod) (sArgs sMessage : CString)
    (hdet : detectorOk env sArgs = true) (hform : listTokens sArgs = 2) :
    (∀ (c0 : CString) (rest : VCString), clientArg sArgs = c0 :: rest →
      serverArg sArgs ≠ [] →
      (CanConvertToUnicode env c0 = false →
        (OnLoad env self sArgs sMessage).ret = false ∧
        (OnLoad env self sArgs sMessage).sMessage = cannotConvert c0) ∧
      (CanConvertToUnicode env c0 = true → ∀ s,
        firstUnresolvable env (serverArg sArgs) = some s →
        (OnLoad env self sArgs sMessage).ret = false ∧
        (OnLoad env self sArgs sMessage).sMessage = cannotConvert s) ∧
      (CanConvertToUnicode env c0 = true → firstUnresolvable env (serverArg sArgs) = none →
        ∀ b, firstUnresolvable env (clientArg sArgs) = some b →
        (OnLoad env self sArgs sMessage).ret = false ∧
        (OnLoad env self sArgs sMessage).sMessage = cannotConvert b)) ∧
    (∀ name : CString,
      cannotConvert name =
        ['C', 'a', 'n', 'n', 'o', 't', ' ', 'c', 'o', 'n', 'v', 'e', 'r', 't', ' ',
          Char.ofNat 39] ++ name ++ [Char.ofNat 39, '.']) ∧
    (serverArg sArgs = [] → (OnLoad env self sArgs sMessage).probed = []) ∧
    (clientArg sArgs = [] → (OnLoad env self sArgs sMessage).probed = []) ∧
    (∀ (c0 : CString) (rest server : VCString), server ≠ [] →
      (CanConvertToUnicode env c0 = false →
        (probeOuter env server (c0 :: rest)).failed = some c0) ∧
      (CanConvertToUnicode env c0 = true → ∀ s, firstUnresolvable env server = some s →
        (probeOuter env server (c0 :: rest)).failed = some s) ∧
      (CanConvertToUnicode env c0 = true → firstUnresolvable env server = none →
        (probeOuter env server (c0 :: rest)).failed = firstUnresolvable env (c0 :: rest))) ∧
    (∀ client : VCString, (probeOuter env [] client).probed = []) ∧
    (∀ server : VCString, (probeOuter env server []).probed = []) := by
  have hprobed := OnLoad_probed env self sArgs sMessage hdet hform
  refine ⟨?_, ?_, ?_, ?_,
    fun c0 rest server hs => probeOuter_failed_order env c0 rest server hs, ?_, ?_⟩
  · intro c0 rest hc hsne
    obtain ⟨h1, h2, h3⟩ := probeOuter_failed_order env c0 rest (serverArg sArgs) hsne
    rw [← hc] at h1 h2 h3
    refine ⟨?_, ?_, ?_⟩
    · intro hbad
      have := OnLoad_of_probe_failed env self sArgs sMessage hdet hform c0 (h1 hbad)
      exact ⟨this.1, this.2.1⟩
    · intro hok s hs
      have := OnLoad_of_probe_failed env self sArgs sMessage hdet hform s (h2 hok s hs)
      exact ⟨this.1, this.2.1⟩
    · intro hok hnone b hb
      have hf := h3 hok hnone
      rw [hb] at hf
      have := OnLoad_of_probe_failed env self sArgs sMessage hdet hform b hf
      exact ⟨this.1, this.2.1⟩
  · intro name
    simp [cannotConvert]
  · intro hs
    rw [hprobed, hs, probeOuter_nil_to]
  · intro hc
    rw [hprobed, hc]
    rfl
  · intro client
    rw [probeOuter_nil_to]
  · intro server
    rfl

/-- Witness of C17: `client[0]` is resolvable, the server list has the
unresolvable `Bad-S` in second place and the client list the unresolvable
`Bad-C`: the server name is reported. Two more argument strings show the
other two cases, and `Bad-C ,` a server word without a name. -/
theorem OnLoad_probe_order_witness :
    detectorOk stubEnv "UTF-8,Bad-C ISO-8859-1,Bad-S".toList = true ∧
    listTokens "UTF-8,Bad-C ISO-8859-1,Bad-S".toList = 2 ∧
    (OnLoad stubEnv CCharsetMod.construct "UTF-8,Bad-C ISO-8859-1,Bad-S".toList []).sMessage =
      cannotConvert "Bad-S".toList ∧
    (OnLoad stubEnv CCharsetMod.construct "UTF-8,Bad-C ISO-8859-1,Bad-S".toList []).probed =
      ["UTF-8".toList, "ISO-8859-1".toList, "UTF-8".toList, "Bad-S".toList] ∧
    (OnLoad stubEnv CCharsetMod.construct "Bad-C,UTF-8 ISO-8859-1,Bad-S".toList []).sMessage =
      cannotConvert "Bad-C".toList ∧
    (OnLoad stubEnv CCharsetMod.construct "UTF-8,Bad-C ISO-8859-1,TIS-620".toList []).sMessage =
      cannotConvert "Bad-C".toList ∧
    (OnLoad stubEnv CCharsetMod.construct "Bad-C ,".toList []).probed = [] ∧
    ((∀ (c0 : CString) (rest : VCString),
        clientArg "UTF-8,Bad-C ISO-8859-1,Bad-S".toList = c0 :: rest →
        serverArg "UTF-8,Bad-C ISO-8859-1,Bad-S".toList ≠ [] →
        (CanConvertToUnicode stubEnv c0 = false →
          (OnLoad stubEnv CCharsetMod.construct
            "UTF-8,Bad-C ISO-8859-1,Bad-S".toList []).ret = false ∧
          (OnLoad stubEnv CCharsetMod.construct
            "UTF-8,Bad-C ISO-8859-1,Bad-S".toList []).sMessage = cannotConvert c0) ∧
        (CanConvertToUnicode stubEnv c0 = true → ∀ s,
          firstUnresolvable stubEnv (serverArg "UTF-8,Bad-C ISO-8859-1,Bad-S".toList) = some s →
          (OnLoad stubEnv CCharsetMod.construct
            "UTF-8,Bad-C ISO-8859-1,Bad-S".toList []).ret = false ∧
          (OnLoad stubEnv CCharsetMod.construct
            "UTF-8,Bad-C ISO-8859-1,Bad-S".toList []).sMessage = cannotConvert s) ∧
        (CanConvertToUnicode stubEnv c0 = true →
          firstUnresolvable stubEnv (serverArg "UTF-8,Bad-C ISO-8859-1,Bad-S".toList) = none →
          ∀ b, firstUnresolvable stubEnv (clientArg "UTF-8,Bad-C ISO-8859-1,Bad-S".toList) =
            some b →
          (OnLoad stubEnv CCharsetMod.construct
            "UTF-8,Bad-C ISO-8859-1,Bad-S".toList []).ret = false ∧
          (OnLoad stubEnv CCharsetMod.construct
            "UTF-8,Bad-C ISO-8859-1,Bad-S".toList []).sMessage = cannotConvert b)) ∧
      (∀ name : CString,
        cannotConvert name =
          ['C', 'a', 'n', 'n', 'o', 't', ' ', 'c', 'o', 'n', 'v', 'e', 'r', 't', ' ',
            Char.ofNat 39] ++ name ++ [Char.ofNat 39, '.']) ∧
      (serverArg "UTF-8,Bad-C ISO-8859-1,Bad-S".toList = [] →
        (OnLoad stubEnv CCharsetMod.construct
          "UTF-8,Bad-C ISO-8859-1,Bad-S".toList []).probed = []) ∧
      (clientArg "UTF-8,Bad-C ISO-8859-1,Bad-S".toList = [] →
        (OnLoad stubEnv CCharsetMod.construct
          "UTF-8,Bad-C ISO-8859-1,Bad-S".toList []).probed = []) ∧
      (∀ (c0 : CString) (rest server : VCString), server ≠ [] →
        (CanConvertToUnicode stubEnv c0 = false →
          (probeOuter stubEnv server (c0 :: rest)).failed = some c0) ∧
        (CanConvertToUnicode stubEnv c0 = true → ∀ s, firstUnresolvable stubEnv server = some s →
          (probeOuter stubEnv server (c0 :: rest)).failed = some s) ∧
        (CanConvertToUnicode stubEnv c0 = true → firstUnresolvable stubEnv server = none →
          (probeOuter stubEnv server (c0 :: rest)).failed =
            firstUnresolvable stubEnv (c0 :: rest))) ∧
      (∀ client : VCString, (probeOuter stubEnv [] client).probed = []) ∧
      (∀ server : VCString, (probeOuter stubEnv server []).probed = [])) :=
  ⟨by decide, by decide, by decide, by decide, by decide, by decide, by decide,
    OnLoad_probe_order stubEnv CCharsetMod.construct
      "UTF-8,Bad-C ISO-8859-1,Bad-S".toList [] (by decide) (by decide)⟩

/-- C18: failed validation stores no candidate lists. Whenever `OnLoad`
returns false, `m_vsClientCharsets` and `m_vsServerCharsets` are equal to
their values before the call; and a false return has one of three causes:
the detector cannot be opened, the number of list words is not two, or the
probe stopped at an unresolvable name. -/
theorem OnLoad_false_keeps_lists (env : Env) (self : CCharsetMod) (sArgs sMessage : CString)
    (h : (OnLoad env self sArgs sMessage).ret = false) :
    (OnLoad env self sArgs sMessage).self.m_vsClientCharsets = self.m_vsClientCharsets ∧
    (OnLoad env self sArgs sMessage).self.m_vsServerCharsets = self.m_vsServerCharsets ∧
    (detectorOk env sArgs = false ∨ listTokens sArgs ≠ 2 ∨
      ∃ bad, (probeOuter env (serverArg sArgs) (clientArg sArgs)).failed = some bad) := by
  by_cases hd : detectorOk env sArgs = true
  · by_cases h2 : (tokenize sArgs []).length - listIndex sArgs = 2
    · cases hp : (probeOuter env (serverArg sArgs) (clientArg sArgs)).failed with
      | some bad =>
        have hr := OnLoad_of_probe_failed env self sArgs sMessage hd h2 bad hp
        rw [hr.2.2]
        exact ⟨(afterFlags_lists env self sArgs).1, (afterFlags_lists env self sArgs).2,
          Or.inr (Or.inr ⟨bad, rfl⟩)⟩
      | none =>
        exfalso
        have hp2 : (probeOuter env (Split (Token sArgs (listIndex sArgs + 1)))
            (Split (Token sArgs (listIndex sArgs)))).failed = none := hp
        rw [OnLoad_eq_OnLoadLists env self sArgs sMessage hd,
          OnLoadLists_probe env _ sArgs sMessage _ h2, hp2] at h
        simp at h
    · rw [OnLoad_eq_OnLoadLists env self sArgs sMessage hd,
        OnLoadLists_usage env _ sArgs sMessage _ h2]
      exact ⟨(afterFlags_lists env self sArgs).1, (afterFlags_lists env self sArgs).2,
        Or.inr (Or.inl h2)⟩
  · have hd0 : detectorOk env sArgs = false := by simpa using hd
    rw [OnLoad_detector_fails env self sArgs sMessage hd0]
    exact ⟨rfl, rfl, Or.inl hd0⟩

/-- Witness of C18: a module that holds lists from before is loaded with an
unresolvable name; the lists stay, while `m_bGuess` is already set. -/
theorem OnLoad_false_keeps_lists_witness :
    (OnLoad stubEnv (moduleWith ["UTF-8".toList] ["ISO-8859-1".toList] false false)
      "-guess TIS-620 Bad-S".toList []).ret = false ∧
    (OnLoad stubEnv (moduleWith ["UTF-8".toList] ["ISO-8859-1".toList] false false)
      "-guess TIS-620 Bad-S".toList []).self =
      moduleWith ["UTF-8".toList] ["ISO-8859-1".toList] true false ∧
    ((OnLoad stubEnv (moduleWith ["UTF-8".toList] ["ISO-8859-1".toList] false false)
        "-guess TIS-620 Bad-S".toList []).self.m_vsClientCharsets =
        (moduleWith ["UTF-8".toList] ["ISO-8859-1".toList] false false).m_vsClientCharsets ∧
      (OnLoad stubEnv (moduleWith ["UTF-8".toList] ["ISO-8859-1".toList] false false)
        "-guess TIS-620 Bad-S".toList []).self.m_vsServerCharsets =
        (moduleWith ["UTF-8".toList] ["ISO-8859-1".toList] false false).m_vsServerCharsets ∧
      (detectorOk stubEnv "-guess TIS-620 Bad-S".toList = false ∨
        listTokens "-guess TIS-620 Bad-S".toList ≠ 2 ∨
        ∃ bad, (probeOuter stubEnv (serverArg "-guess TIS-620 Bad-S".toList)
          (clientArg "-guess TIS-620 Bad-S".toList)).failed = some bad)) :=
  ⟨by decide, by decide,
    OnLoad_false_keeps_lists stubEnv
      (moduleWith ["UTF-8".toList] ["ISO-8859-1".toList] false false)
      "-guess TIS-620 Bad-S".toList [] (by decide)⟩

/-! ## The documented argument form -/

theorem tokenize_word_append (w rest acc : CString) (hw : ' ' ∉ w) :
    tokenize (w ++ rest) acc = tokenize rest (acc ++ w) := by
  induction w generalizing acc with
  | nil => simp
  | cons c cs ih =>
    have hc : c ≠ ' ' := by
      intro h
      exact hw (by rw [h]; exact List.mem_cons_self _ _)
    have hcs : ' ' ∉ cs := fun h => hw (List.mem_cons_of_mem _ h)
    have hstep : tokenize ((c :: cs) ++ rest) acc = tokenize (cs ++ rest) (acc ++ [c]) := by
      show tokenize (c :: (cs ++ rest)) acc = _
      simp only [tokenize, hc, if_false]
    rw [hstep, ih _ hcs]
    simp

theorem isWord_iff (w : CString) : isWord w = true ↔ w ≠ [] ∧ ' ' ∉ w := by
  simp [isWord, List.isEmpty_iff]

/-- A word followed by a space is one token. -/
theorem tokenize_word_space (w rest : CString) (hw : isWord w = true) :
    tokenize (w ++ ' ' :: rest) [] = w :: tokenize rest [] := by
  obtain ⟨hne, hsp⟩ := (isWord_iff w).mp hw
  rw [tokenize_word_append w _ [] hsp]
  simp only [List.nil_append, tokenize, if_true, hne, if_false]

/-- A word at the end of the string is one token. -/
theorem tokenize_word_end (w : CString) (hw : isWord w = true) :
    tokenize w [] = [w] := by
  obtain ⟨hne, hsp⟩ := (isWord_iff w).mp hw
  have h := tokenize_word_append w [] [] hsp
  rw [List.append_nil] at h
  rw [h]
  simp only [List.nil_append, tokenize, hne, if_false]

/-- The words of an argument string of the documented form. -/
theorem tokenize_documentedArgs (guess onlyServer : Bool) (clientList serverList : CString)
    (hc : isWord clientList = true) (hs : isWord serverList = true) :
    tokenize (documentedArgs guess onlyServer clientList serverList) [] =
      (if guess then ["-guess".toList] else []) ++
        ((if onlyServer then ["-onlyserver".toList] else []) ++ [clientList, serverList]) := by
  have hlists : tokenize (clientList ++ ' ' :: serverList) [] = [clientList, serverList] := by
    rw [tokenize_word_space _ _ hc, tokenize_word_end _ hs]
  have hg : isWord "-guess".toList = true := by decide
  have ho : isWord "-onlyserver".toList = true := by decide
  cases guess <;> cases onlyServer <;>
    simp only [documentedArgs, if_true, if_false, Bool.false_eq_true, List.nil_append,
      List.append_assoc, List.singleton_append, tokenize_word_space _ _ hg,
      tokenize_word_space _ _ ho, hlists, List.cons_append]

theorem SplitLoop_append_no_delim (sDelim : Char) (a rest sTmp : CString) (h : sDelim ∉ a) :
    SplitLoop sDelim (a ++ rest) sTmp = SplitLoop sDelim rest (sTmp ++ a) := by
  induction a generalizing sTmp with
  | nil => simp
  | cons c cs ih =>
    have hc : c ≠ sDelim := by
      intro h0
      exact h (by rw [h0]; exact List.mem_cons_self _ _)
    have hcs : sDelim ∉ cs := fun h0 => h (List.mem_cons_of_mem _ h0)
    have hstep : SplitLoop sDelim ((c :: cs) ++ rest) sTmp =
        SplitLoop sDelim (cs ++ rest) (sTmp ++ [c]) := by
      show SplitLoop sDelim (c :: (cs ++ rest)) sTmp = _
      simp only [SplitLoop, hc, if_false]
    rw [hstep, ih _ hcs]
    simp

/-- A non-empty word without a comma is a list of one name. -/
theorem Split_no_comma (w : CString) (hne : w ≠ []) (h : ',' ∉ w) : Split w = [w] := by
  have h1 := SplitLoop_append_no_delim ',' w [] [] h
  rw [List.append_nil] at h1
  simp only [Split, hne, if_false, h1, List.nil_append, SplitLoop]

/-- Splitting the names written with commas gives the names back, in order. -/
theorem Split_joinComma (names : VCString) (hne : names ≠ [])
    (h : ∀ n ∈ names, n ≠ [] ∧ ',' ∉ n) : Split (joinComma names) = names := by
  have hloop : ∀ l : VCString, l ≠ [] → (∀ n ∈ l, n ≠ [] ∧ ',' ∉ n) →
      SplitLoop ',' (joinComma l) [] = l := by
    intro l
    induction l with
    | nil => intro h0; exact absurd rfl h0
    | cons a rest ih =>
      intro _ hl
      have ha := hl a (List.mem_cons_self _ _)
      cases rest with
      | nil =>
        have h1 := SplitLoop_append_no_delim ',' a [] [] ha.2
        rw [List.append_nil] at h1
        simp only [joinComma, h1, List.nil_append, SplitLoop, ha.1, if_false]
      | cons b r =>
        have hrest := ih (by simp) (fun n hn => hl n (List.mem_cons_of_mem _ hn))
        simp only [joinComma]
        rw [SplitLoop_append_no_delim ',' a _ [] ha.2]
        simp only [List.nil_append, SplitLoop, if_true, ha.1, if_false]
        rw [hrest]
  have hj : joinComma names ≠ [] := by
    intro h0
    have := hloop names hne h
    rw [h0] at this
    simp only [SplitLoop, if_true] at this
    exact hne this.symm
  simp only [Split, hj, if_false]
  exact hloop names hne h

/-- A string equal to `b` up to case has no comma when `b` has none, and is
not empty when `b` is not. -/
theorem Equals_no_comma (a b : CString) (h : Equals a b = true)
    (hb : ',' ∉ b.map Char.toLower) (hne : b ≠ []) : a ≠ [] ∧ ',' ∉ a := by
  simp only [Equals, decide_eq_true_eq] at h
  constructor
  · intro h0
    rw [h0] at h
    simp only [List.map_nil] at h
    exact hne (List.map_eq_nil_iff.mp h.symm)
  · intro hc
    have : Char.toLower ',' ∈ a.map Char.toLower := List.mem_map_of_mem _ hc
    rw [h] at this
    exact hb this

/-- A list word all of whose names resolve is not a spelling of a flag, when
no spelling of the flag is a charset name. -/
theorem Equals_flag_false (env : Env) (tok flag : CString)
    (hb : ',' ∉ flag.map Char.toLower) (hne : flag ≠ [])
    (hflag : ∀ n, Equals n flag = true → CanConvertToUnicode env n = false)
    (hres : ∀ n ∈ Split tok, CanConvertToUnicode env n = true) :
    Equals tok flag = false := by
  by_contra h
  have he : Equals tok flag = true := by simpa using h
  obtain ⟨h1, h2⟩ := Equals_no_comma tok flag he hb hne
  have hs := Split_no_comma tok h1 h2
  have hr := hres tok (by rw [hs]; exact List.mem_singleton_self _)
  rw [hflag tok he] at hr
  exact Bool.false_ne_true hr

/-- How `OnLoad` reads an argument string of the documented form whose
client word is not a spelling of a flag. -/
theorem documentedArgs_read (guess onlyServer : Bool) (clientList serverList : CString)
    (hc : isWord clientList = true) (hs : isWord serverList = true)
    (hcG : Equals clientList "-guess".toList = false)
    (hcO : Equals clientList "-onlyserver".toList = false) :
    guessGiven (documentedArgs guess onlyServer clientList serverList) = guess ∧
    onlyServerGiven (documentedArgs guess onlyServer clientList serverList) = onlyServer ∧
    clientArg (documentedArgs guess onlyServer clientList serverList) = Split clientList ∧
    serverArg (documentedArgs guess onlyServer clientList serverList) = Split serverList ∧
    listTokens (documentedArgs guess onlyServer clientList serverList) = 2 := by
  have htok := tokenize_documentedArgs guess onlyServer clientList serverList hc hs
  have hGG : Equals "-guess".toList "-guess".toList = true := by decide
  have hOG : Equals "-onlyserver".toList "-guess".toList = false := by decide
  have hOO : Equals "-onlyserver".toList "-onlyserver".toList = true := by decide
  cases guess <;> cases onlyServer
  · -- neither flag
    simp only [Bool.false_eq_true, if_false, List.nil_append] at htok
    have t0 : Token (documentedArgs false false clientList serverList) 0 = clientList := by
      rw [Token, htok]; rfl
    have t1 : Token (documentedArgs false false clientList serverList) 1 = serverList := by
      rw [Token, htok]; rfl
    have hg : guessGiven (documentedArgs false false clientList serverList) = false := by
      rw [guessGiven, t0, hcG]
    have ho : onlyServerGiven (documentedArgs false false clientList serverList) = false := by
      rw [onlyServerGiven, hg]
      simp only [Bool.false_eq_true, if_false]
      rw [t0, hcO]
    have hi : listIndex (documentedArgs false false clientList serverList) = 0 := by
      rw [listIndex, hg, ho]; rfl
    refine ⟨hg, ho, ?_, ?_, ?_⟩
    · rw [clientArg, hi, t0]
    · rw [serverArg, hi, t1]
    · rw [listTokens, hi, htok]; rfl
  · -- -onlyserver
    simp only [Bool.false_eq_true, if_false, if_true, List.nil_append,
      List.singleton_append] at htok
    have t0 : Token (documentedArgs false true clientList serverList) 0 =
        "-onlyserver".toList := by
      rw [Token, htok]; rfl
    have t1 : Token (documentedArgs false true clientList serverList) 1 = clientList := by
      rw [Token, htok]; rfl
    have t2 : Token (documentedArgs false true clientList serverList) 2 = serverList := by
      rw [Token, htok]; rfl
    have hg : guessGiven (documentedArgs false true clientList serverList) = false := by
      rw [guessGiven, t0, hOG]
    have ho : onlyServerGiven (documentedArgs false true clientList serverList) = true := by
      rw [onlyServerGiven, hg]
      simp only [Bool.false_eq_true, if_false]
      rw [t0, hOO]
    have hi : listIndex (documentedArgs false true clientList serverList) = 1 := by
      rw [listIndex, hg, ho]; rfl
    refine ⟨hg, ho, ?_, ?_, ?_⟩
    · rw [clientArg, hi, t1]
    · rw [serverArg, hi, t2]
    · rw [listTokens, hi, htok]; rfl
  · -- -guess
    simp only [Bool.false_eq_true, if_false, if_true, List.nil_append,
      List.singleton_append] at htok
    have t0 : Token (documentedArgs true false clientList serverList) 0 = "-guess".toList := by
      rw [Token, htok]; rfl
    have t1 : Token (documentedArgs true false clientList serverList) 1 = clientList := by
      rw [Token, htok]; rfl
    have t2 : Token (documentedArgs true false clientList serverList) 2 = serverList := by
      rw [Token, htok]; rfl
    have hg : guessGiven (documentedArgs true false clientList serverList) = true := by
      rw [guessGiven, t0, hGG]
    have ho : onlyServerGiven (documentedArgs true false clientList serverList) = false := by
      rw [onlyServerGiven, hg]
      simp only [if_true]
      rw [t1, hcO]
    have hi : listIndex (documentedArgs true false clientList serverList) = 1 := by
      rw [listIndex, hg, ho]; rfl
    refine ⟨hg, ho, ?_, ?_, ?_⟩
    · rw [clientArg, hi, t1]
    · rw [serverArg, hi, t2]
    · rw [listTokens, hi, htok]; rfl
  · -- both flags
    simp only [if_true, List.singleton_append] at htok
    have t0 : Token (documentedArgs true true clientList serverList) 0 = "-guess".toList := by
      rw [Token, htok]; rfl
    have t1 : Token (documentedArgs true true clientList serverList) 1 =
        "-onlyserver".toList := by
      rw [Token, htok]; rfl
    have t2 : Token (documentedArgs true true clientList serverList) 2 = clientList := by
      rw [Token, htok]; rfl
    have t3 : Token (documentedArgs true true clientList serverList) 3 = serverList := by
      rw [Token, htok]; rfl
    have hg : guessGiven (documentedArgs true true clientList serverList) = true := by
      rw [guessGiven, t0, hGG]
    have ho : onlyServerGiven (documentedArgs true true clientList serverList) = true := by
      rw [onlyServerGiven, hg]
      simp only [if_true]
      rw [t1, hOO]
    have hi : listIndex (documentedArgs true true clientList serverList) = 2 := by
      rw [listIndex, hg, ho]; rfl
    refine ⟨hg, ho, ?_, ?_, ?_⟩
    · rw [clientArg, hi, t2]
    · rw [serverArg, hi, t3]
    · rw [listTokens, hi, htok]; rfl

/-- Past the detector, with two list words whose names all resolve, `OnLoad` succeeds. -/
theorem OnLoad_ret_true_of (env : Env) (self : CCharsetMod) (sArgs sMessage : CString)
    (hdet : detectorOk env sArgs = true) (hform : listTokens sArgs = 2)
    (hres : ∀ n ∈ clientArg sArgs ++ serverArg sArgs, CanConvertToUnicode env n = true) :
    (OnLoad env self sArgs sMessage).ret = true := by
  have h2 : (tokenize sArgs []).length - listIndex sArgs = 2 := hform
  have hp : (probeOuter env (Split (Token sArgs (listIndex sArgs + 1)))
      (Split (Token sArgs (listIndex sArgs)))).failed = none := by
    rw [probeOuter_failed_none]
    exact Or.inr (Or.inr ⟨fun f hf => hres f (List.mem_append_left _ hf),
      fun t ht => hres t (List.mem_append_right _ ht)⟩)
  rw [OnLoad_eq_OnLoadLists env self sArgs sMessage hdet,
    OnLoadLists_probe env _ sArgs sMessage _ h2, hp]

/-- In the example ICU no spelling of a flag is a charset name. -/
theorem stubEnv_flags_unresolvable (n : CString)
    (h : Equals n "-guess".toList = true ∨ Equals n "-onlyserver".toList = true) :
    CanConvertToUnicode stubEnv n = false := by
  by_cases hn : n ∈ stubNames
  · exfalso
    simp only [stubNames, List.mem_cons, List.mem_singleton, List.not_mem_nil, or_false] at hn
    rcases hn with hn | hn | hn <;> subst hn <;> revert h <;> decide
  · simp only [CanConvertToUnicode, stubEnv, hn, if_false]
    decide

/-- C14: the two flags are independent. For every argument string of the
documented form `[-guess] [-onlyserver] <client_list> <server_list>` with
resolvable names and a detector that opens, given to a module whose flags are
as the constructor leaves them (and an ICU in which no spelling of a flag is
a charset name), `OnLoad` succeeds; afterwards `m_bGuess` is true exactly
when `-guess` was given, `m_bOnlyServer` is true exactly when `-onlyserver`
was given, and the stored client and server lists are the comma-splits of
`<client_list>` and `<server_list>`: the names written there, in their
original order. -/
theorem OnLoad_documented_form (env : Env) (self : CCharsetMod) (guess onlyServer : Bool)
    (clientList serverList sMessage : CString)
    (hfreshG : self.m_bGuess = false) (hfreshO : self.m_bOnlyServer = false)
    (hc : isWord clientList = true) (hs : isWord serverList = true)
    (hres : ∀ n ∈ Split clientList ++ Split serverList, CanConvertToUnicode env n = true)
    (hflag : ∀ n, (Equals n "-guess".toList = true ∨ Equals n "-onlyserver".toList = true) →
      CanConvertToUnicode env n = false)
    (hdet : guess = true → U_SUCCESS env.ucsdet_open = true) :
    (OnLoad env self (documentedArgs guess onlyServer clientList serverList) sMessage).ret =
      true ∧
    (OnLoad env self (documentedArgs guess onlyServer clientList serverList)
      sMessage).self.m_bGuess = guess ∧
    (OnLoad env self (documentedArgs guess onlyServer clientList serverList)
      sMessage).self.m_bOnlyServer = onlyServer ∧
    (OnLoad env self (documentedArgs guess onlyServer clientList serverList)
      sMessage).self.m_vsClientCharsets = Split clientList ∧
    (OnLoad env self (documentedArgs guess onlyServer clientList serverList)
      sMessage).self.m_vsServerCharsets = Split serverList ∧
    (∀ names : VCString, names ≠ [] → (∀ n ∈ names, n ≠ [] ∧ ',' ∉ n) →
      clientList = joinComma names →
      (OnLoad env self (documentedArgs guess onlyServer clientList serverList)
        sMessage).self.m_vsClientCharsets = names) ∧
    (∀ names : VCString, names ≠ [] → (∀ n ∈ names, n ≠ [] ∧ ',' ∉ n) →
      serverList = joinComma names →
      (OnLoad env self (documentedArgs guess onlyServer clientList serverList)
        sMessage).self.m_vsServerCharsets = names) := by
  have hcG : Equals clientList "-guess".toList = false :=
    Equals_flag_false env clientList "-guess".toList (by decide) (by decide)
      (fun n hn => hflag n (Or.inl hn))
      (fun n hn => hres n (List.mem_append_left _ hn))
  have hcO : Equals clientList "-onlyserver".toList = false :=
    Equals_flag_false env clientList "-onlyserver".toList (by decide) (by decide)
      (fun n hn => hflag n (Or.inr hn))
      (fun n hn => hres n (List.mem_append_left _ hn))
  obtain ⟨hg, ho, hca, hsa, hform⟩ :=
    documentedArgs_read guess onlyServer clientList serverList hc hs hcG hcO
  have hd : detectorOk env (documentedArgs guess onlyServer clientList serverList) = true := by
    rw [detectorOk, hg]
    cases guess with
    | false => rfl
    | true => simp [hdet rfl]
  have hret := OnLoad_ret_true_of env self _ sMessage hd hform (by rw [hca, hsa]; exact hres)
  obtain ⟨_, _, _, hself⟩ := OnLoad_true_self env self _ sMessage hret
  have hflags := afterFlags_flags env self (documentedArgs guess onlyServer clientList serverList)
  have hG : (OnLoad env self (documentedArgs guess onlyServer clientList serverList)
      sMessage).self.m_bGuess = guess := by
    rw [hself]
    show (afterFlags env self _).m_bGuess = guess
    rw [hflags.1, hfreshG, hg, Bool.false_or]
  have hO : (OnLoad env self (documentedArgs guess onlyServer clientList serverList)
      sMessage).self.m_bOnlyServer = onlyServer := by
    rw [hself]
    show (afterFlags env self _).m_bOnlyServer = onlyServer
    rw [hflags.2, hfreshO, ho, Bool.false_or]
  have hC : (OnLoad env self (documentedArgs guess onlyServer clientList serverList)
      sMessage).self.m_vsClientCharsets = Split clientList := by
    rw [hself]
    exact hca
  have hS : (OnLoad env self (documentedArgs guess onlyServer clientList serverList)
      sMessage).self.m_vsServerCharsets = Split serverList := by
    rw [hself]
    exact hsa
  refine ⟨hret, hG, hO, hC, hS, ?_, ?_⟩
  · intro names hne hn hj
    rw [hC, hj]
    exact Split_joinComma names hne hn
  · intro names hne hn hj
    rw [hS, hj]
    exact Split_joinComma names hne hn

/-- Witness of C14: `-guess` without `-onlyserver`, two client names and one
server name. -/
theorem OnLoad_documented_form_witness :
    documentedArgs true false "UTF-8,TIS-620".toList "ISO-8859-1".toList =
      "-guess UTF-8,TIS-620 ISO-8859-1".toList ∧
    (OnLoad stubEnv CCharsetMod.construct "-guess UTF-8,TIS-620 ISO-8859-1".toList []).self =
      { m_vsClientCharsets := ["UTF-8".toList, "TIS-620".toList],
        m_vsServerCharsets := ["ISO-8859-1".toList],
        m_bGuess := true, m_bOnlyServer := false, m_pCharsetDetector := true } ∧
    ((OnLoad stubEnv CCharsetMod.construct
        (documentedArgs true false "UTF-8,TIS-620".toList "ISO-8859-1".toList) []).ret = true ∧
      (OnLoad stubEnv CCharsetMod.construct
        (documentedArgs true false "UTF-8,TIS-620".toList "ISO-8859-1".toList)
        []).self.m_bGuess = true ∧
      (OnLoad stubEnv CCharsetMod.construct
        (documentedArgs true false "UTF-8,TIS-620".toList "ISO-8859-1".toList)
        []).self.m_bOnlyServer = false ∧
      (OnLoad stubEnv CCharsetMod.construct
        (documentedArgs true false "UTF-8,TIS-620".toList "ISO-8859-1".toList)
        []).self.m_vsClientCharsets = Split "UTF-8,TIS-620".toList ∧
      (OnLoad stubEnv CCharsetMod.construct
        (documentedArgs true false "UTF-8,TIS-620".toList "ISO-8859-1".toList)
        []).self.m_vsServerCharsets = Split "ISO-8859-1".toList ∧
      (∀ names : VCString, names ≠ [] → (∀ n ∈ names, n ≠ [] ∧ ',' ∉ n) →
        "UTF-8,TIS-620".toList = joinComma names →
        (OnLoad stubEnv CCharsetMod.construct
          (documentedArgs true false "UTF-8,TIS-620".toList "ISO-8859-1".toList)
          []).self.m_vsClientCharsets = names) ∧
      (∀ names : VCString, names ≠ [] → (∀ n ∈ names, n ≠ [] ∧ ',' ∉ n) →
        "ISO-8859-1".toList = joinComma names →
        (OnLoad stubEnv CCharsetMod.construct
          (documentedArgs true false "UTF-8,TIS-620".toList "ISO-8859-1".toList)
          []).self.m_vsServerCharsets = names)) :=
  ⟨by decide, by decide,
    OnLoad_documented_form stubEnv CCharsetMod.construct true false
      "UTF-8,TIS-620".toList "ISO-8859-1".toList [] rfl rfl (by decide) (by decide)
      (by decide) stubEnv_flags_unresolvable (fun _ => by decide)⟩

end Charset
